import Mathlib

/-!
# Verification of the OpenShift MCP server tool-dispatch engine

Shallow embedding of `src/index.js` (class `OpenShiftMCPServer`): the
dispatcher (`CallToolRequestSchema` handler), argument validation
(`validateToolArguments`), error sanitization (`sanitizeErrorMessage`),
the cluster-health handler (`checkClusterHealth`), resource-issue
detection (`detectResourceIssues`), the resource-quantity parser
(`parseResourceValue`), the kube-burner runner (`runKubeBurner`), the
per-node kubelet diagnostic loop (`checkKubeletStatus`), and the
deployment YAML/command builder (`createDeployment`).

Conventions of the embedding:
* JavaScript numbers are modelled as `JSNum`, an executable exact
  rational (numerator/denominator pair; the claims involve no
  floating-point rounding and no NaN/Infinity propagation); JS integer
  counters as `Nat`.  `JSNum.toRat` maps into `ℚ` for statements.
* JS values occurring as tool arguments are modelled by `JSVal`
  (string / number / boolean / null / array / object).
* Thrown exceptions are modelled by `Except String`.
* External command execution (`exec`) is modelled by an oracle mapping
  the command string to a result record.
-/

/-! ## Exact rational numbers for JS arithmetic

Mathlib's `ℚ` operations are `@[irreducible]`, so an executable
numerator/denominator pair is used instead.  All operations keep the
denominator positive; comparisons are by cross-multiplication (sound
whenever denominators are positive, which every operation preserves and
every literal satisfies). -/

structure JSNum where
  num : Int
  den : Int
deriving DecidableEq, Repr

instance (n : Nat) : OfNat JSNum n := ⟨⟨n, 1⟩⟩

def JSNum.add (a b : JSNum) : JSNum := ⟨a.num * b.den + b.num * a.den, a.den * b.den⟩
def JSNum.sub (a b : JSNum) : JSNum := ⟨a.num * b.den - b.num * a.den, a.den * b.den⟩
def JSNum.mul (a b : JSNum) : JSNum := ⟨a.num * b.num, a.den * b.den⟩
def JSNum.neg (a : JSNum) : JSNum := ⟨-a.num, a.den⟩

/-- Division, flipping the sign into the numerator to keep `den` positive.
    (Division by zero is never reached on the modelled code paths.) -/
def JSNum.div (a b : JSNum) : JSNum :=
  if 0 ≤ b.num then ⟨a.num * b.den, a.den * b.num⟩
  else ⟨-(a.num * b.den), a.den * (-b.num)⟩

instance : Add JSNum := ⟨JSNum.add⟩
instance : Sub JSNum := ⟨JSNum.sub⟩
instance : Mul JSNum := ⟨JSNum.mul⟩
instance : Neg JSNum := ⟨JSNum.neg⟩
instance : Div JSNum := ⟨JSNum.div⟩

/-- `a ≤ b` as the code's `<=` (denominators positive). -/
def JSNum.leB (a b : JSNum) : Bool := a.num * b.den ≤ b.num * a.den
/-- `a < b` as the code's `<`. -/
def JSNum.ltB (a b : JSNum) : Bool := a.num * b.den < b.num * a.den
/-- `a == b` as the code's `===` on numbers. -/
def JSNum.eqB (a b : JSNum) : Bool := a.num * b.den = b.num * a.den

/-- The rational value of a `JSNum`, for claim-level statements. -/
def JSNum.toRat (a : JSNum) : ℚ := (a.num : ℚ) / (a.den : ℚ)

/-- `10 ^ e` as a `JSNum`. -/
def JSNum.pow10 (e : Nat) : JSNum := ⟨(10 : Int) ^ e, 1⟩

/-- `Math.floor` for nonnegative values, as a `Nat` (used for loop bounds). -/
def JSNum.floorNat (a : JSNum) : Nat := (a.num.fdiv a.den).toNat

/-! ## JS value model -/

/-- A JSON-ish JavaScript value, as it occurs in tool-call arguments. -/
inductive JSVal where
  | vStr (s : String)
  | vNum (q : JSNum)
  | vBool (b : Bool)
  | vNull
  | vArr (xs : List JSVal)
  | vObj (fields : List (String × JSVal))

/-- The argument object of a tool call: an ordered field list. -/
def JSArgs := List (String × JSVal)

/-- Field lookup on an argument object (`args.x`); `none` = `undefined`. -/
def getField (a : JSArgs) (k : String) : Option JSVal :=
  (a.find? (fun p => p.1 == k)).map (·.2)

/-- JavaScript truthiness of a value. -/
def truthyV : JSVal → Bool
  | .vStr s => !(s == "")
  | .vNum q => !(q.eqB 0)
  | .vBool b => b
  | .vNull => false
  | .vArr _ => true
  | .vObj _ => true

/-- Truthiness of a possibly-undefined value (`args.x` in a boolean position). -/
def truthyO : Option JSVal → Bool
  | none => false
  | some v => truthyV v

/-- JavaScript `typeof`. -/
def typeofJS : JSVal → String
  | .vStr _ => "string"
  | .vNum _ => "number"
  | .vBool _ => "boolean"
  | .vNull => "object"
  | .vArr _ => "object"
  | .vObj _ => "object"

/-- JavaScript `Array.isArray`. -/
def isArrayJS : JSVal → Bool
  | .vArr _ => true
  | _ => false

/-! ## `parseResourceValue` (src/index.js lines 4092-4125)

`parseFloat` semantics: skip leading whitespace, optional sign, then a
decimal literal `d+(.d*)?` or `.d+`, with an optional well-formed
exponent part; returns `none` for NaN.  ("Infinity" literals are not
modelled; no claim involves them.) -/

def isDigitCh (c : Char) : Bool := '0' ≤ c && c ≤ '9'

def digitsVal (l : List Char) : Nat :=
  l.foldl (fun acc c => acc * 10 + (c.toNat - '0'.toNat)) 0

/-- Parse the optional exponent part `[eE][+-]?d+`; returns the exponent
    (0 when absent or malformed, as `parseFloat` ignores a malformed tail). -/
def parseExp (s : List Char) : Int :=
  match s with
  | 'e' :: rest => parseExpBody rest
  | 'E' :: rest => parseExpBody rest
  | _ => 0
where
  parseExpBody (r : List Char) : Int :=
    match r with
    | '+' :: ds => if (ds.takeWhile isDigitCh).isEmpty then 0 else (digitsVal (ds.takeWhile isDigitCh) : Int)
    | '-' :: ds => if (ds.takeWhile isDigitCh).isEmpty then 0 else -(digitsVal (ds.takeWhile isDigitCh) : Int)
    | ds => if (ds.takeWhile isDigitCh).isEmpty then 0 else (digitsVal (ds.takeWhile isDigitCh) : Int)

/-- The numeric value `mantissa * 10 ^ exp`. -/
def applyExp (m : JSNum) (e : Int) : JSNum :=
  if 0 ≤ e then m * JSNum.pow10 e.toNat else m / JSNum.pow10 (-e).toNat

/-- Parse an unsigned float prefix: `d+(.d*)?` or `.d+`, plus exponent. -/
def parseUnsignedFloat (s : List Char) : Option JSNum :=
  let intDs := s.takeWhile isDigitCh
  let rest := s.dropWhile isDigitCh
  if intDs.isEmpty then
    match rest with
    | '.' :: r2 =>
      let fracDs := r2.takeWhile isDigitCh
      if fracDs.isEmpty then none
      else
        let r3 := r2.dropWhile isDigitCh
        some (applyExp (JSNum.mk (digitsVal fracDs) ((10 : Int) ^ fracDs.length)) (parseExp r3))
    | _ => none
  else
    match rest with
    | '.' :: r2 =>
      let fracDs := r2.takeWhile isDigitCh
      let r3 := r2.dropWhile isDigitCh
      some (applyExp (JSNum.mk (digitsVal intDs) 1 + JSNum.mk (digitsVal fracDs) ((10 : Int) ^ fracDs.length))
        (parseExp r3))
    | _ => some (applyExp (JSNum.mk (digitsVal intDs) 1) (parseExp rest))

/-- JS whitespace characters (the `\s` set / `parseFloat` leading trim). -/
def jsWs (c : Char) : Bool :=
  c = ' ' || c = '\t' || c = '\n' || c = '\x0b' || c = '\x0c' || c = '\r' ||
  c = '\u00A0' || c = '\u1680' || ('\u2000' ≤ c && c ≤ '\u200A') ||
  c = '\u2028' || c = '\u2029' || c = '\u202F' || c = '\u205F' ||
  c = '\u3000' || c = '\uFEFF'

/-- JavaScript `parseFloat(value)`: `none` models NaN. -/
def parseFloatJS (s : String) : Option JSNum :=
  let t := s.data.dropWhile jsWs
  match t with
  | '+' :: r => parseUnsignedFloat r
  | '-' :: r => (parseUnsignedFloat r).map (fun q => -q)
  | r => parseUnsignedFloat r

/-- The regex test `/^\d+(\.\d+)?$/`. -/
def isPlainDecimal (s : String) : Bool :=
  let l := s.data
  let intDs := l.takeWhile isDigitCh
  let rest := l.dropWhile isDigitCh
  if intDs.isEmpty then false
  else match rest with
    | [] => true
    | '.' :: r2 => !(r2.takeWhile isDigitCh).isEmpty && (r2.dropWhile isDigitCh).isEmpty
    | _ => false

/-- `l` ends with `suf` (JS `String.prototype.endsWith`), over char lists. -/
def endsWithL (suf l : List Char) : Bool :=
  l.drop (l.length - suf.length) == suf

/-- JS `s.endsWith(suf)`. -/
def endsWithS (s suf : String) : Bool := endsWithL suf.data s.data

/-- The ordered `memoryUnits` table (`Object.entries` insertion order). -/
def memoryUnits : List (String × JSNum) :=
  [("Ki", 1024), ("Mi", ⟨1024 * 1024, 1⟩), ("Gi", ⟨1024 * 1024 * 1024, 1⟩),
   ("Ti", ⟨1024 * 1024 * 1024 * 1024, 1⟩),
   ("K", 1000), ("M", ⟨1000 * 1000, 1⟩), ("G", ⟨1000 * 1000 * 1000, 1⟩),
   ("T", ⟨1000 * 1000 * 1000 * 1000, 1⟩)]

/-- `parseResourceValue(value)` (src/index.js 4092-4125).  The `!value ||
typeof value !== 'string'` guard is the empty-string check here because the
embedding types the argument as a string. -/
def parseResourceValue (value : String) : JSNum :=
  if value = "" then 0
  else
    match parseFloatJS value with
    | none => 0
    | some numValue =>
      if endsWithS value "m" then numValue / 1000
      else if isPlainDecimal value then numValue
      else
        match memoryUnits.find? (fun u => endsWithS value u.1) with
        | some u => numValue * u.2
        | none => numValue

/-! ## `sanitizeErrorMessage` (src/index.js lines 910-916)

The three global, case-insensitive regex replacements
`/token[^,\s]*/gi`, `/password[^,\s]*/gi`, `/secret[^,\s]*/gi`, each with
replacement `<word>[REDACTED]`, applied in that order.  A replacement is
modelled operationally: scan left to right; at the first case-insensitive
occurrence of the keyword, consume it together with the maximal following
run of characters that are neither `,` nor whitespace (the greedy
`[^,\s]*`), emit `<word>[REDACTED]`, and continue after the consumed run
(the `g` flag). -/

/-- Case-folding used by the `i` flag for ASCII pattern letters. -/
def lowChar (c : Char) : Char :=
  if 'A' ≤ c && c ≤ 'Z' then Char.ofNat (c.toNat + 32) else c

/-- Characters that terminate a `[^,\s]*` run. -/
def isStop (c : Char) : Bool := c = ',' || jsWs c

/-- `s` starts with `w` up to ASCII case (`w` is the lowercase keyword). -/
def ciStarts (w s : List Char) : Bool := (s.take w.length).map lowChar == w

/-- Drop the maximal leading run of non-stop characters. -/
def dropRun (s : List Char) : List Char := s.dropWhile (fun c => !isStop c)

/-- Take the maximal leading run of non-stop characters. -/
def takeRun (s : List Char) : List Char := s.takeWhile (fun c => !isStop c)

def redactedW : List Char := ['[', 'R', 'E', 'D', 'A', 'C', 'T', 'E', 'D', ']']
def tokenW : List Char := ['t', 'o', 'k', 'e', 'n']
def passwordW : List Char := ['p', 'a', 's', 's', 'w', 'o', 'r', 'd']
def secretW : List Char := ['s', 'e', 'c', 'r', 'e', 't']

/-- One global case-insensitive replacement pass for keyword `w`. -/
def scanKw (w : List Char) : List Char → List Char
  | [] => []
  | c :: cs =>
    if ciStarts w (c :: cs) then
      w ++ redactedW ++ scanKw w (dropRun (cs.drop (w.length - 1)))
    else
      c :: scanKw w cs
termination_by s => s.length
decreasing_by
  · calc (dropRun (cs.drop (w.length - 1))).length
        ≤ (cs.drop (w.length - 1)).length := (List.dropWhile_suffix _).length_le
      _ ≤ cs.length := by simp [List.length_drop]
      _ < (c :: cs).length := by simp
  · simp

/-- Fuel-indexed mirror of `scanKw`, structurally recursive so that the
    kernel can evaluate it on concrete inputs. -/
def scanKwF (w : List Char) : Nat → List Char → List Char
  | _, [] => []
  | 0, s => s
  | fuel + 1, c :: cs =>
    if ciStarts w (c :: cs) then
      w ++ redactedW ++ scanKwF w fuel (dropRun (cs.drop (w.length - 1)))
    else
      c :: scanKwF w fuel cs

/-- `sanitizeErrorMessage` over char lists: token, then password, then
    secret replacements. -/
def sanitizeList (s : List Char) : List Char :=
  scanKw secretW (scanKw passwordW (scanKw tokenW s))

/-- `sanitizeErrorMessage(message)` (src/index.js 910-916). -/
def sanitizeErrorMessage (m : String) : String :=
  String.mk (sanitizeList m.data)

lemma scanKw_nil (w : List Char) : scanKw w [] = [] := by
  simp [scanKw]

lemma scanKw_cons_of_pos {w : List Char} {c : Char} {cs : List Char}
    (h : ciStarts w (c :: cs) = true) :
    scanKw w (c :: cs) = w ++ redactedW ++ scanKw w (dropRun (cs.drop (w.length - 1))) := by
  rw [scanKw]
  simp [h]

lemma scanKw_cons_of_neg {w : List Char} {c : Char} {cs : List Char}
    (h : ciStarts w (c :: cs) = false) :
    scanKw w (c :: cs) = c :: scanKw w cs := by
  rw [scanKw]
  simp [h]

lemma scanKw_eq_fuel (w : List Char) :
    ∀ (fuel : Nat) (s : List Char), s.length ≤ fuel → scanKw w s = scanKwF w fuel s := by
  intro fuel
  induction fuel with
  | zero =>
    intro s hs
    have : s = [] := List.length_eq_zero.mp (Nat.le_zero.mp hs)
    subst this
    simp [scanKw_nil, scanKwF]
  | succ n ih =>
    intro s hs
    match s with
    | [] => simp [scanKw_nil, scanKwF]
    | c :: cs =>
      rw [show scanKwF w (n + 1) (c :: cs) =
        if ciStarts w (c :: cs) then
          w ++ redactedW ++ scanKwF w n (dropRun (cs.drop (w.length - 1)))
        else c :: scanKwF w n cs from rfl]
      by_cases h : ciStarts w (c :: cs) = true
      · rw [scanKw_cons_of_pos h, if_pos h]
        have hlen : (dropRun (cs.drop (w.length - 1))).length ≤ n := by
          calc (dropRun (cs.drop (w.length - 1))).length
              ≤ (cs.drop (w.length - 1)).length := (List.dropWhile_suffix _).length_le
            _ ≤ cs.length := by simp [List.length_drop]
            _ ≤ n := Nat.le_of_succ_le_succ hs
        rw [ih _ hlen]
      · have h' : ciStarts w (c :: cs) = false := by simpa using h
        rw [scanKw_cons_of_neg h', if_neg h]
        exact congrArg (c :: ·) (ih cs (Nat.le_of_succ_le_succ hs))

/-- Evaluation form of `scanKw` for concrete inputs. -/
lemma scanKw_eval (w s : List Char) : scanKw w s = scanKwF w s.length s :=
  scanKw_eq_fuel w s.length s le_rfl

/-! ### Occurrence machinery for the sanitizer proofs -/

/-- Index of the first case-insensitive occurrence of `w` in `s`. -/
def firstOcc (w : List Char) : List Char → Option Nat
  | [] => if ciStarts w [] then some 0 else none
  | c :: cs => if ciStarts w (c :: cs) then some 0 else (firstOcc w cs).map (· + 1)

/-- The action of one replacement pass on a single `[^,\s]`-free run: truncate
    at the first occurrence and append the replacement text. -/
def fRun (w r : List Char) : List Char :=
  match firstOcc w r with
  | none => r
  | some j => r.take j ++ w ++ redactedW

/-- The action of the whole sanitizer on a single run. -/
def gRun (r : List Char) : List Char :=
  fRun secretW (fRun passwordW (fRun tokenW r))

lemma ciStarts_iff {w s : List Char} :
    ciStarts w s = true ↔ (s.map lowChar).take w.length = w := by
  simp [ciStarts]

lemma ciStarts_length {w s : List Char} (h : ciStarts w s = true) : w.length ≤ s.length := by
  have h' := congrArg List.length (ciStarts_iff.mp h)
  simp [List.length_take] at h'
  omega

lemma ciStarts_nil {w : List Char} (hw : w ≠ []) : ciStarts w [] = false := by
  rcases w with _ | ⟨c, cs⟩
  · exact absurd rfl hw
  · simp [ciStarts]

/-- A prefix of an occurrence is determined: the first `a ≤ |w|` characters
    case-fold to `w.take a`. -/
lemma ciStarts_take_pre {w s : List Char} (h : ciStarts w s = true) (a : Nat) (ha : a ≤ w.length) :
    (s.map lowChar).take a = w.take a := by
  have h' := ciStarts_iff.mp h
  have := congrArg (List.take a) h'
  rwa [List.take_take, Nat.min_eq_left ha] at this

lemma lowChar_eq_self_of_not_upper {c : Char} (h : ¬('A' ≤ c ∧ c ≤ 'Z')) : lowChar c = c := by
  unfold lowChar
  split
  · next hc => exact absurd (by simpa using hc) h
  · rfl

lemma lowChar_stop {c : Char} (h : isStop c = true) : lowChar c = c := by
  apply lowChar_eq_self_of_not_upper
  rintro ⟨h1, h2⟩
  have hA : 65 ≤ c.toNat := Char.le_def.mp h1
  have hZ : c.toNat ≤ 90 := Char.le_def.mp h2
  simp only [isStop, jsWs, Bool.or_eq_true, Bool.and_eq_true, decide_eq_true_eq] at h
  rcases h with hx | hws
  · subst hx; exact absurd hA (by decide)
  · casesm* _ ∨ _
    all_goals rename_i hx
    all_goals first
      | (subst hx; exact absurd hA (by decide))
      | (subst hx; exact absurd hZ (by decide))
      | (have h8 : 8192 ≤ c.toNat := Char.le_def.mp hx.1
         omega)

lemma firstOcc_drop_pos {w : List Char} :
    ∀ {s : List Char} {j : Nat}, firstOcc w s = some j → ciStarts w (s.drop j) = true := by
  intro s
  induction s with
  | nil =>
    intro j h
    unfold firstOcc at h
    split at h
    · next hc => cases h; simpa using hc
    · cases h
  | cons c cs ih =>
    intro j h
    unfold firstOcc at h
    split at h
    · next hc => cases h; simpa using hc
    · next hc =>
      rcases Option.map_eq_some'.mp h with ⟨j', hj', rfl⟩
      simpa using ih hj'

lemma firstOcc_drop_min {w : List Char} :
    ∀ {s : List Char} {j : Nat}, firstOcc w s = some j →
      ∀ i < j, ciStarts w (s.drop i) = false := by
  intro s
  induction s with
  | nil =>
    intro j h i hi
    unfold firstOcc at h
    split at h
    · cases h; omega
    · cases h
  | cons c cs ih =>
    intro j h i hi
    unfold firstOcc at h
    split at h
    · cases h; omega
    · next hc =>
      rcases Option.map_eq_some'.mp h with ⟨j', hj', rfl⟩
      match i with
      | 0 => simpa using hc
      | i' + 1 => simpa using ih hj' i' (by omega)

lemma firstOcc_none_all {w : List Char} :
    ∀ {s : List Char}, firstOcc w s = none → ∀ i, ciStarts w (s.drop i) = false := by
  intro s
  induction s with
  | nil =>
    intro h i
    unfold firstOcc at h
    split at h
    · cases h
    · next hc => simpa using hc
  | cons c cs ih =>
    intro h i
    unfold firstOcc at h
    split at h
    · cases h
    · next hc =>
      have h' : firstOcc w cs = none := by
        rcases ho : firstOcc w cs with _ | j'
        · rfl
        · rw [ho] at h; cases h
      match i with
      | 0 => simpa using hc
      | i' + 1 => simpa using ih h' i'

lemma firstOcc_intro {w : List Char} (hw : w ≠ []) :
    ∀ {s : List Char} {j : Nat}, ciStarts w (s.drop j) = true →
      (∀ i < j, ciStarts w (s.drop i) = false) → firstOcc w s = some j := by
  intro s
  induction s with
  | nil =>
    intro j hpos _
    rw [List.drop_nil] at hpos
    exact absurd hpos (by simp [ciStarts_nil hw])
  | cons c cs ih =>
    intro j hpos hmin
    match j with
    | 0 =>
      unfold firstOcc
      rw [if_pos (by simpa using hpos)]
    | j' + 1 =>
      have hc : ciStarts w (c :: cs) = false := by simpa using hmin 0 (by omega)
      unfold firstOcc
      rw [if_neg (by simp [hc])]
      have : firstOcc w cs = some j' := by
        apply ih (by simpa using hpos)
        intro i hi
        simpa using hmin (i + 1) (by omega)
      simp [this]

lemma ciStarts_stop_head {w : List Char} {c : Char} {s : List Char}
    (hw : w ≠ []) (hwAll : ∀ x ∈ w, isStop x = false) (hc : isStop c = true) :
    ciStarts w (c :: s) = false := by
  rcases w with _ | ⟨wh, wt⟩
  · exact absurd rfl hw
  · by_contra hcontra
    have h : ciStarts (wh :: wt) (c :: s) = true := by
      simpa using Bool.not_eq_false _ |>.mp hcontra
    have h' := ciStarts_iff.mp h
    rw [List.map_cons, List.length_cons, List.take_succ_cons] at h'
    have hhd : lowChar c = wh := (List.cons.injEq _ _ _ _).mp h' |>.1
    have hwh : isStop wh = false := hwAll wh (by simp)
    rw [← hhd, lowChar_stop hc] at hwh
    rw [hc] at hwh
    cases hwh

lemma ciStarts_append_run {w r t : List Char}
    (hwAll : ∀ x ∈ w, isStop x = false)
    (ht : t = [] ∨ ∃ d t', t = d :: t' ∧ isStop d = true) :
    ciStarts w (r ++ t) = ciStarts w r := by
  by_cases hl : w.length ≤ r.length
  · have htake : (r ++ t).take w.length = r.take w.length := by
      rw [List.take_append_eq_append_take, Nat.sub_eq_zero_of_le hl]
      simp
    simp [ciStarts, htake]
  · push_neg at hl
    have h1 : ciStarts w r = false := by
      by_contra hcontra
      have := ciStarts_length (Bool.not_eq_false _ |>.mp hcontra)
      omega
    rw [h1]
    rcases ht with rfl | ⟨d, t', rfl, hd⟩
    · simpa using h1
    · by_contra hcontra
      have h2 : ciStarts w (r ++ d :: t') = true := Bool.not_eq_false _ |>.mp hcontra
      have h' := ciStarts_iff.mp h2
      rw [List.map_append, List.take_append_eq_append_take] at h'
      have hlen : (r.map lowChar).length = r.length := by simp
      have hpos : 0 < w.length - (r.map lowChar).length := by omega
      have hdm : lowChar d ∈ w := by
        rw [← h']
        apply List.mem_append_right
        obtain ⟨k, hk⟩ : ∃ k, w.length - (r.map lowChar).length = k + 1 :=
          ⟨w.length - (r.map lowChar).length - 1, by omega⟩
        rw [hk, List.map_cons, List.take_succ_cons]
        simp
      rw [lowChar_stop hd] at hdm
      have hbad := hwAll d hdm
      rw [hd] at hbad
      cases hbad

/-- A list that may legally follow a `[^,\s]`-free run: empty, or
    starting with a stop character. -/
def ValidTail (t : List Char) : Prop :=
  t = [] ∨ ∃ d t', t = d :: t' ∧ isStop d = true

lemma dropRun_append_of_all {A t : List Char} (hA : ∀ c ∈ A, isStop c = false)
    (ht : ValidTail t) : dropRun (A ++ t) = t := by
  induction A with
  | nil =>
    rw [List.nil_append]
    rcases ht with rfl | ⟨d, t', rfl, hd⟩
    · rfl
    · unfold dropRun
      rw [List.dropWhile_cons, if_neg (by simp [hd])]
  | cons a A' ih =>
    unfold dropRun at *
    rw [List.cons_append, List.dropWhile_cons, if_pos (by simp [hA a (by simp)])]
    exact ih (fun c hc => hA c (by simp [hc]))

lemma firstOcc_nil_none {w : List Char} (hw : w ≠ []) : firstOcc w [] = none := by
  unfold firstOcc
  rw [if_neg (by simp [ciStarts_nil hw])]

lemma fRun_nil (w : List Char) (hw : w ≠ []) : fRun w [] = [] := by
  unfold fRun
  rw [firstOcc_nil_none hw]

/-- One replacement pass acts on a run followed by a valid tail as the
    run-level function followed by the pass on the tail. -/
lemma scanKw_runeq (w : List Char) (hw : w ≠ []) (hwAll : ∀ x ∈ w, isStop x = false) :
    ∀ (r t : List Char), (∀ x ∈ r, isStop x = false) → ValidTail t →
      scanKw w (r ++ t) = fRun w r ++ scanKw w t := by
  intro r
  induction r with
  | nil =>
    intro t _ ht
    rw [List.nil_append, fRun_nil w hw, List.nil_append]
  | cons c r' ih =>
    intro t hr ht
    by_cases hcs : ciStarts w (c :: r') = true
    · have hca : ciStarts w ((c :: r') ++ t) = true := by
        rw [ciStarts_append_run hwAll ht]; exact hcs
      rw [List.cons_append, scanKw_cons_of_pos (by rwa [List.cons_append] at hca)]
      have hlw : w.length ≤ (c :: r').length := ciStarts_length hcs
      obtain ⟨k, hk⟩ : ∃ k, w.length = k + 1 := by
        rcases w with _ | ⟨wh, wt⟩
        · exact absurd rfl hw
        · exact ⟨wt.length, rfl⟩
      have hk' : k ≤ r'.length := by
        rw [hk] at hlw
        simpa using hlw
      have hdrop1 : (r' ++ t).drop (w.length - 1) = (c :: r').drop w.length ++ t := by
        rw [hk]
        simp only [Nat.add_sub_cancel, List.drop_succ_cons]
        rw [List.drop_append_eq_append_drop, Nat.sub_eq_zero_of_le hk', List.drop_zero]
      rw [hdrop1]
      have hALL : ∀ x ∈ (c :: r').drop w.length, isStop x = false :=
        fun x hx => hr x (List.mem_of_mem_drop hx)
      rw [dropRun_append_of_all hALL ht]
      have hf : firstOcc w (c :: r') = some 0 := by
        unfold firstOcc
        rw [if_pos hcs]
      unfold fRun
      rw [hf]
      simp
    · have hcs' : ciStarts w (c :: r') = false := by simpa using hcs
      have hca : ciStarts w ((c :: r') ++ t) = false := by
        rw [ciStarts_append_run hwAll ht]; exact hcs'
      rw [List.cons_append, scanKw_cons_of_neg (by rwa [List.cons_append] at hca)]
      rw [ih t (fun x hx => hr x (by simp [hx])) ht]
      have hsh : fRun w (c :: r') = c :: fRun w r' := by
        have hstep : firstOcc w (c :: r') = (firstOcc w r').map (· + 1) := by
          rw [show firstOcc w (c :: r') =
            if ciStarts w (c :: r') = true then some 0
            else (firstOcc w r').map (· + 1) from rfl]
          rw [if_neg (by simp [hcs'])]
        unfold fRun
        rw [hstep]
        rcases ho : firstOcc w r' with _ | j
        · simp
        · simp [List.take_succ_cons]
      rw [hsh, List.cons_append]

/-! ### Fixed points of the run-level replacement -/

/-- `x` contains no case-insensitive occurrence of `w`. -/
def NoOcc (w x : List Char) : Prop := ∀ i, ciStarts w (x.drop i) = false

/-- `x` has exactly one occurrence of `w`, at `m`, and from `m` on it is
    exactly the replacement text. -/
def FixedAt (w x : List Char) (m : Nat) : Prop :=
  x.drop m = w ++ redactedW ∧ ∀ i, ciStarts w (x.drop i) = true → i = m

/-- `x` is stable under the `w`-replacement pass. -/
def FixedStrong (w x : List Char) : Prop := NoOcc w x ∨ ∃ m, FixedAt w x m

lemma drop_take_append {x B : List Char} {i j : Nat} (hij : i ≤ j) (hj : j ≤ x.length) :
    (x.take j ++ B).drop i = (x.drop i).take (j - i) ++ B := by
  rw [List.drop_append_eq_append_drop, List.length_take, Nat.min_eq_left hj,
    Nat.sub_eq_zero_of_le hij, List.drop_zero, List.drop_take]

lemma drop_take_append_ge {x B : List Char} {i j : Nat} (hij : j ≤ i) (hj : j ≤ x.length) :
    (x.take j ++ B).drop i = B.drop (i - j) := by
  rw [List.drop_append_eq_append_drop, List.length_take, Nat.min_eq_left hj,
    List.drop_take, Nat.sub_eq_zero_of_le hij, List.take_zero, List.nil_append]

/-- A window lying entirely inside the preserved part is unchanged. -/
lemma ciStarts_prefix_window {w x B : List Char} {i j : Nat} (hj : j ≤ x.length)
    (hiw : i + w.length ≤ j) :
    ciStarts w ((x.take j ++ B).drop i) = ciStarts w (x.drop i) := by
  have hwin : ((x.take j ++ B).drop i).take w.length = (x.drop i).take w.length := by
    rw [drop_take_append (by omega) hj, List.take_append_eq_append_take]
    have hlen : ((x.drop i).take (j - i)).length = j - i := by
      rw [List.length_take, List.length_drop]
      omega
    rw [hlen, show w.length - (j - i) = 0 from Nat.sub_eq_zero_of_le (by omega),
      List.take_zero, List.append_nil, List.take_take, Nat.min_eq_left (by omega)]
  unfold ciStarts
  rw [hwin]

/-- A window that straddles the truncation point determines a suffix of `w`
    in terms of the replacement block. -/
lemma ciStarts_span_window {w x B : List Char} {i j : Nat} (hj : j ≤ x.length)
    (hij : i < j) (hspan : j < i + w.length)
    (h : ciStarts w ((x.take j ++ B).drop i) = true) :
    w.drop (j - i) = (B.map lowChar).take (w.length - (j - i)) := by
  have h' := ciStarts_iff.mp h
  rw [drop_take_append (by omega) hj, List.map_append, List.take_append_eq_append_take] at h'
  have hlen : (((x.drop i).take (j - i)).map lowChar).length = j - i := by
    rw [List.length_map, List.length_take, List.length_drop]
    omega
  rw [hlen, List.take_of_length_le (by omega)] at h'
  have hsplit : ((x.drop i).take (j - i)).map lowChar ++ (B.map lowChar).take (w.length - (j - i))
      = w.take (j - i) ++ w.drop (j - i) := by
    rw [List.take_append_drop]
    exact h'
  have hl1 : (((x.drop i).take (j - i)).map lowChar).length = (w.take (j - i)).length := by
    rw [hlen, List.length_take, Nat.min_eq_left (by omega)]
  exact ((List.append_inj hsplit hl1).2).symm

/-- `fRun w` is the identity on stable strings. -/
lemma fRun_id_of_fixed (w : List Char) (hw : w ≠ []) (hlow : w.map lowChar = w)
    {x : List Char} (hx : FixedStrong w x) : fRun w x = x := by
  rcases hx with hno | ⟨m, hm1, hm2⟩
  · rcases ho : firstOcc w x with _ | j
    · simp only [fRun, ho]
    · exact absurd (firstOcc_drop_pos ho) (by simp [hno j])
  · have hocc : ciStarts w (x.drop m) = true := by
      rw [hm1]
      apply ciStarts_iff.mpr
      rw [List.map_append, List.take_append_eq_append_take,
        List.take_of_length_le (by simp), List.length_map, Nat.sub_self, List.take_zero,
        List.append_nil, hlow]
    have hmin : ∀ i < m, ciStarts w (x.drop i) = false := by
      intro i hi
      by_contra h
      exact absurd (hm2 i (Bool.not_eq_false _ |>.mp h)) (by omega)
    have ho := firstOcc_intro hw hocc hmin
    simp only [fRun, ho]
    rw [List.append_assoc, ← hm1, List.take_append_drop]

/-- The output of `fRun w` is stable (no-self-overlap facts as hypotheses). -/
lemma fRun_fixed (w : List Char) (hw : w ≠ [])
    (hA : ∀ k, 0 < k → ciStarts w ((w ++ redactedW).drop k) = false)
    (hB : ∀ a, a < w.length → 0 < a →
      w.drop a ≠ ((w ++ redactedW).map lowChar).take (w.length - a))
    (x : List Char) : FixedStrong w (fRun w x) := by
  rcases ho : firstOcc w x with _ | j
  · have hid : fRun w x = x := by simp only [fRun, ho]
    rw [hid]
    exact Or.inl (firstOcc_none_all ho)
  · have hy : fRun w x = x.take j ++ (w ++ redactedW) := by
      simp only [fRun, ho]
      rw [List.append_assoc]
    have hwpos : 0 < w.length := List.length_pos.mpr hw
    have hjx : j ≤ x.length := by
      have h1 := ciStarts_length (firstOcc_drop_pos ho)
      rw [List.length_drop] at h1
      omega
    rw [hy]
    refine Or.inr ⟨j, ?_, ?_⟩
    · rw [drop_take_append_ge le_rfl hjx, Nat.sub_self, List.drop_zero]
    · intro i hi
      rcases lt_trichotomy i j with hlt | heq | hgt
      · by_cases hiw : i + w.length ≤ j
        · rw [ciStarts_prefix_window hjx hiw] at hi
          exact absurd hi (by simp [firstOcc_drop_min ho i hlt])
        · have hsp := ciStarts_span_window hjx hlt (by omega) hi
          exact absurd hsp (hB (j - i) (by omega) (by omega))
      · exact heq
      · rw [drop_take_append_ge (by omega) hjx] at hi
        exact absurd hi (by simp [hA (i - j) (by omega)])

/-- A later pass for keyword `v` preserves stability for keyword `w`. -/
lemma fRun_preserves_fixed (w v : List Char) (hv : v ≠ [])
    (hf1 : ∀ k, ciStarts w ((v ++ redactedW).drop k) = false)
    (hf2 : ∀ a, a < w.length → 0 < a →
      w.drop a ≠ ((v ++ redactedW).map lowChar).take (w.length - a))
    (hf3 : ∀ k, ciStarts v ((w ++ redactedW).drop k) = false)
    {x : List Char} (hx : FixedStrong w x) : FixedStrong w (fRun v x) := by
  rcases ho : firstOcc v x with _ | j
  · have hid : fRun v x = x := by simp only [fRun, ho]
    rw [hid]
    exact hx
  · have hy : fRun v x = x.take j ++ (v ++ redactedW) := by
      simp only [fRun, ho]
      rw [List.append_assoc]
    have hoccv := firstOcc_drop_pos ho
    have hvpos : 0 < v.length := List.length_pos.mpr hv
    have hjx : j ≤ x.length := by
      have h1 := ciStarts_length hoccv
      rw [List.length_drop] at h1
      omega
    rw [hy]
    left
    intro i
    by_contra hcon
    have hi : ciStarts w ((x.take j ++ (v ++ redactedW)).drop i) = true :=
      Bool.not_eq_false _ |>.mp hcon
    rcases Nat.lt_or_ge i j with hlt | hge
    · by_cases hiw : i + w.length ≤ j
      · rw [ciStarts_prefix_window hjx hiw] at hi
        rcases hx with hno | ⟨m, hm1, hm2⟩
        · exact absurd hi (by simp [hno i])
        · have him : i = m := hm2 i hi
          subst him
          have hxj : x.drop j = (w ++ redactedW).drop (j - i) := by
            rw [← hm1, List.drop_drop]
            congr 1
            omega
          rw [hxj] at hoccv
          exact absurd hoccv (by simp [hf3 (j - i)])
      · have hsp := ciStarts_span_window hjx hlt (by omega) hi
        exact absurd hsp (hf2 (j - i) (by omega) (by omega))
    · rw [drop_take_append_ge hge hjx] at hi
      exact absurd hi (by simp [hf1 (i - j)])

/-! ### The concrete keyword facts and run-level idempotence -/

lemma noOcc_all_of_bounded {w b : List Char} (hw : w ≠ [])
    (h : ∀ k, k < b.length + 1 → ciStarts w (b.drop k) = false) :
    ∀ k, ciStarts w (b.drop k) = false := by
  intro k
  by_cases hk : k < b.length + 1
  · exact h k hk
  · rw [List.drop_eq_nil_of_le (by omega)]
    exact ciStarts_nil hw

lemma noOccPos_all_of_bounded {w b : List Char} (hw : w ≠ [])
    (h : ∀ k, k < b.length + 1 → 0 < k → ciStarts w (b.drop k) = false) :
    ∀ k, 0 < k → ciStarts w (b.drop k) = false := by
  intro k hkpos
  by_cases hk : k < b.length + 1
  · exact h k hk hkpos
  · rw [List.drop_eq_nil_of_le (by omega)]
    exact ciStarts_nil hw

/-- The three passes leave a string on which each keyword is stable. -/
lemma gRun_fixed (r : List Char) :
    FixedStrong tokenW (gRun r) ∧ FixedStrong passwordW (gRun r) ∧
      FixedStrong secretW (gRun r) := by
  have hT1 : FixedStrong tokenW (fRun tokenW r) :=
    fRun_fixed tokenW (by decide)
      (noOccPos_all_of_bounded (by decide) (by decide)) (by decide) r
  have hT2 : FixedStrong tokenW (fRun passwordW (fRun tokenW r)) :=
    fRun_preserves_fixed tokenW passwordW (by decide)
      (noOcc_all_of_bounded (by decide) (by decide)) (by decide)
      (noOcc_all_of_bounded (by decide) (by decide)) hT1
  have hT3 : FixedStrong tokenW (gRun r) :=
    fRun_preserves_fixed tokenW secretW (by decide)
      (noOcc_all_of_bounded (by decide) (by decide)) (by decide)
      (noOcc_all_of_bounded (by decide) (by decide)) hT2
  have hP1 : FixedStrong passwordW (fRun passwordW (fRun tokenW r)) :=
    fRun_fixed passwordW (by decide)
      (noOccPos_all_of_bounded (by decide) (by decide)) (by decide) _
  have hP2 : FixedStrong passwordW (gRun r) :=
    fRun_preserves_fixed passwordW secretW (by decide)
      (noOcc_all_of_bounded (by decide) (by decide)) (by decide)
      (noOcc_all_of_bounded (by decide) (by decide)) hP1
  have hS : FixedStrong secretW (gRun r) :=
    fRun_fixed secretW (by decide)
      (noOccPos_all_of_bounded (by decide) (by decide)) (by decide) _
  exact ⟨hT3, hP2, hS⟩

lemma gRun_idem (r : List Char) : gRun (gRun r) = gRun r := by
  obtain ⟨hT, hP, hS⟩ := gRun_fixed r
  show fRun secretW (fRun passwordW (fRun tokenW (gRun r))) = gRun r
  rw [fRun_id_of_fixed tokenW (by decide) (by decide) hT,
    fRun_id_of_fixed passwordW (by decide) (by decide) hP,
    fRun_id_of_fixed secretW (by decide) (by decide) hS]

/-! ### Decomposition of the sanitizer over runs -/

lemma dropRun_valid (s : List Char) : ValidTail (dropRun s) := by
  induction s with
  | nil => exact Or.inl rfl
  | cons a s' ih =>
    unfold dropRun at *
    rw [List.dropWhile_cons]
    by_cases ha : isStop a = true
    · rw [if_neg (by simp [ha])]
      exact Or.inr ⟨a, s', rfl, ha⟩
    · rw [if_pos (by simp [Bool.not_eq_true _ |>.mp ha])]
      exact ih

lemma fRun_stopfree {w r : List Char} (hwAll : ∀ x ∈ w, isStop x = false)
    (hr : ∀ x ∈ r, isStop x = false) : ∀ x ∈ fRun w r, isStop x = false := by
  intro x hx
  rcases ho : firstOcc w r with _ | j
  · rw [fRun, ho] at hx
    exact hr x hx
  · simp only [fRun, ho] at hx
    rcases List.mem_append.mp hx with h1 | h2
    · rcases List.mem_append.mp h1 with h3 | h4
      · exact hr x (List.mem_of_mem_take h3)
      · exact hwAll x h4
    · have hred : ∀ y ∈ redactedW, isStop y = false := by decide
      exact hred x h2

lemma gRun_stopfree {r : List Char} (hr : ∀ x ∈ r, isStop x = false) :
    ∀ x ∈ gRun r, isStop x = false :=
  fRun_stopfree (by decide) (fRun_stopfree (by decide) (fRun_stopfree (by decide) hr))

lemma scanKw_valid_tail {w t : List Char} (hw : w ≠ []) (hwAll : ∀ x ∈ w, isStop x = false)
    (ht : ValidTail t) : ValidTail (scanKw w t) := by
  rcases ht with rfl | ⟨d, t', rfl, hd⟩
  · exact Or.inl (scanKw_nil w)
  · exact Or.inr ⟨d, scanKw w t',
      by rw [scanKw_cons_of_neg (ciStarts_stop_head hw hwAll hd)], hd⟩

lemma sanitizeList_valid_tail {t : List Char} (ht : ValidTail t) :
    ValidTail (sanitizeList t) :=
  scanKw_valid_tail (by decide) (by decide)
    (scanKw_valid_tail (by decide) (by decide)
      (scanKw_valid_tail (by decide) (by decide) ht))

lemma sanitizeList_nil : sanitizeList [] = [] := by
  simp [sanitizeList, scanKw_nil]

lemma sanitizeList_stop_cons {c : Char} {t : List Char} (hc : isStop c = true) :
    sanitizeList (c :: t) = c :: sanitizeList t := by
  unfold sanitizeList
  rw [scanKw_cons_of_neg (ciStarts_stop_head (by decide) (by decide) hc),
    scanKw_cons_of_neg (ciStarts_stop_head (by decide) (by decide) hc),
    scanKw_cons_of_neg (ciStarts_stop_head (by decide) (by decide) hc)]

lemma sanitizeList_runeq {r t : List Char} (hr : ∀ x ∈ r, isStop x = false)
    (ht : ValidTail t) : sanitizeList (r ++ t) = gRun r ++ sanitizeList t := by
  show scanKw secretW (scanKw passwordW (scanKw tokenW (r ++ t))) = _
  rw [scanKw_runeq tokenW (by decide) (by decide) r t hr ht]
  rw [scanKw_runeq passwordW (by decide) (by decide) _ _
    (fRun_stopfree (by decide) hr)
    (scanKw_valid_tail (by decide) (by decide) ht)]
  rw [scanKw_runeq secretW (by decide) (by decide) _ _
    (fRun_stopfree (by decide) (fRun_stopfree (by decide) hr))
    (scanKw_valid_tail (by decide) (by decide)
      (scanKw_valid_tail (by decide) (by decide) ht))]
  rfl

lemma sanitizeList_idem_aux :
    ∀ (n : Nat) (s : List Char), s.length = n →
      sanitizeList (sanitizeList s) = sanitizeList s := by
  intro n
  induction n using Nat.strong_induction_on with
  | _ n ih =>
    intro s hn
    match s, hn with
    | [], _ => simp [sanitizeList_nil]
    | c :: t, hn =>
      by_cases hc : isStop c = true
      · rw [sanitizeList_stop_cons hc, sanitizeList_stop_cons hc,
          ih t.length (by simp at hn; omega) t rfl]
      · have hcf : isStop c = false := Bool.not_eq_true _ |>.mp hc
        have hs : (c :: t) = takeRun (c :: t) ++ dropRun (c :: t) :=
          (List.takeWhile_append_dropWhile _ _).symm
        have hrAll : ∀ x ∈ takeRun (c :: t), isStop x = false := by
          intro x hx
          have := List.mem_takeWhile_imp hx
          simpa using this
        have htail : ValidTail (dropRun (c :: t)) := dropRun_valid _
        have hrne : takeRun (c :: t) ≠ [] := by
          unfold takeRun
          rw [List.takeWhile_cons, if_pos (by simp [hcf])]
          simp
        have hlen : (dropRun (c :: t)).length < n := by
          have h1 : (takeRun (c :: t)).length + (dropRun (c :: t)).length
              = (c :: t).length := by
            conv_rhs => rw [hs]
            rw [List.length_append]
          have h2 : 0 < (takeRun (c :: t)).length := List.length_pos.mpr hrne
          rw [hn] at h1
          omega
        calc sanitizeList (sanitizeList (c :: t))
            = sanitizeList (gRun (takeRun (c :: t)) ++ sanitizeList (dropRun (c :: t))) := by
              conv_lhs => rw [hs, sanitizeList_runeq hrAll htail]
          _ = gRun (gRun (takeRun (c :: t)))
              ++ sanitizeList (sanitizeList (dropRun (c :: t))) :=
              sanitizeList_runeq (gRun_stopfree hrAll) (sanitizeList_valid_tail htail)
          _ = gRun (takeRun (c :: t)) ++ sanitizeList (dropRun (c :: t)) := by
              rw [gRun_idem, ih (dropRun (c :: t)).length hlen _ rfl]
          _ = sanitizeList (c :: t) := by
              rw [← sanitizeList_runeq hrAll htail, ← hs]

/-- Idempotence of the sanitizer, over char lists. -/
lemma sanitizeList_idem (s : List Char) :
    sanitizeList (sanitizeList s) = sanitizeList s :=
  sanitizeList_idem_aux s.length s rfl

/-! ### No `<keyword>=` substring survives sanitization -/

lemma ciStarts_mono {w e s : List Char} (h : ciStarts (w ++ e) s = true) :
    ciStarts w s = true := by
  have h' := ciStarts_iff.mp h
  apply ciStarts_iff.mpr
  have := congrArg (List.take w.length) h'
  rw [List.take_take, List.length_append, Nat.min_eq_left (by omega),
    List.take_append_eq_append_take, Nat.sub_self, List.take_zero, List.append_nil,
    List.take_of_length_le le_rfl] at this
  exact this

/-- On a stable string the pattern `<keyword>=` never occurs: the sole
    occurrence of the keyword is followed by `[REDACTED]`. -/
lemma no_eq_occ_of_fixed {w x : List Char}
    (hfix : FixedStrong w x) : ∀ i, ciStarts (w ++ ['=']) (x.drop i) = false := by
  intro i
  by_contra hcon
  have hi : ciStarts (w ++ ['=']) (x.drop i) = true := Bool.not_eq_false _ |>.mp hcon
  have hw : ciStarts w (x.drop i) = true := ciStarts_mono hi
  rcases hfix with hno | ⟨m, hm1, hm2⟩
  · rw [hno i] at hw
    cases hw
  · have him : i = m := hm2 i hw
    subst him
    rw [hm1] at hi
    have h' := ciStarts_iff.mp hi
    rw [List.map_append, List.length_append] at h'
    rw [show redactedW = '[' :: redactedW.tail from rfl, List.map_cons,
      List.take_append_eq_append_take, List.take_of_length_le (by simp),
      List.length_map] at h'
    have hlen1 : (w.length + ['='].length) - w.length = 1 := by simp
    rw [hlen1, List.take_succ_cons, List.take_zero] at h'
    have := (List.append_inj h' (by simp)).2
    rw [show lowChar '[' = '[' from rfl] at this
    cases this

lemma sanitizeList_no_pat_aux {w : List Char}
    (hwAll : ∀ x ∈ w ++ ['='], isStop x = false)
    (hfix : ∀ r, FixedStrong w (gRun r)) :
    ∀ (n : Nat) (s : List Char), s.length = n →
      ∀ i, ciStarts (w ++ ['=']) ((sanitizeList s).drop i) = false := by
  have hpne : w ++ ['='] ≠ [] := by simp
  intro n
  induction n using Nat.strong_induction_on with
  | _ n ih =>
    intro s hn i
    match s, hn with
    | [], _ =>
      rw [sanitizeList_nil, List.drop_nil]
      exact ciStarts_nil hpne
    | c :: t, hn =>
      by_cases hc : isStop c = true
      · rw [sanitizeList_stop_cons hc]
        match i with
        | 0 => exact ciStarts_stop_head hpne hwAll hc
        | i' + 1 =>
          rw [List.drop_succ_cons]
          exact ih t.length (by simp at hn; omega) t rfl i'
      · have hcf : isStop c = false := Bool.not_eq_true _ |>.mp hc
        have hs : (c :: t) = takeRun (c :: t) ++ dropRun (c :: t) :=
          (List.takeWhile_append_dropWhile _ _).symm
        have hrAll : ∀ x ∈ takeRun (c :: t), isStop x = false := by
          intro x hx
          simpa using List.mem_takeWhile_imp hx
        have htail : ValidTail (dropRun (c :: t)) := dropRun_valid _
        have hrne : takeRun (c :: t) ≠ [] := by
          unfold takeRun
          rw [List.takeWhile_cons, if_pos (by simp [hcf])]
          simp
        have hlen : (dropRun (c :: t)).length < n := by
          have h1 : (takeRun (c :: t)).length + (dropRun (c :: t)).length
              = (c :: t).length := by
            conv_rhs => rw [hs]
            rw [List.length_append]
          have h2 : 0 < (takeRun (c :: t)).length := List.length_pos.mpr hrne
          rw [hn] at h1
          omega
        rw [show sanitizeList (c :: t)
            = gRun (takeRun (c :: t)) ++ sanitizeList (dropRun (c :: t)) by
          conv_lhs => rw [hs]
          exact sanitizeList_runeq hrAll htail]
        by_cases hi : i ≤ (gRun (takeRun (c :: t))).length
        · rw [List.drop_append_eq_append_drop, Nat.sub_eq_zero_of_le hi, List.drop_zero]
          rw [ciStarts_append_run hwAll (sanitizeList_valid_tail htail)]
          exact no_eq_occ_of_fixed (hfix (takeRun (c :: t))) i
        · push_neg at hi
          rw [List.drop_append_eq_append_drop,
            List.drop_eq_nil_of_le (by omega), List.nil_append]
          exact ih (dropRun (c :: t)).length hlen _ rfl _

lemma sanitizeList_no_token (s : List Char) (i : Nat) :
    ciStarts (tokenW ++ ['=']) ((sanitizeList s).drop i) = false :=
  sanitizeList_no_pat_aux (by decide) (fun r => (gRun_fixed r).1) s.length s rfl i

lemma sanitizeList_no_password (s : List Char) (i : Nat) :
    ciStarts (passwordW ++ ['=']) ((sanitizeList s).drop i) = false :=
  sanitizeList_no_pat_aux (by decide) (fun r => (gRun_fixed r).2.1) s.length s rfl i

lemma sanitizeList_no_secret (s : List Char) (i : Nat) :
    ciStarts (secretW ++ ['=']) ((sanitizeList s).drop i) = false :=
  sanitizeList_no_pat_aux (by decide) (fun r => (gRun_fixed r).2.2) s.length s rfl i

/-! ## `validateToolArguments` (src/index.js lines 750-907)

Each helper transcribes one guard idiom from the source:
`checkOptType` is `x !== undefined && typeof x !== ty`, `checkTruthyType`
is `x && typeof x !== ty` (falsy values skip the check), `checkReqType`
is `!x || typeof x !== ty`, `checkEnum` is `x && !allowed.includes(x)`. -/

def checkOptType (a : JSArgs) (k ty msg : String) : Except String Unit :=
  match getField a k with
  | some v => if typeofJS v == ty then .ok () else .error msg
  | none => .ok ()

def checkTruthyType (a : JSArgs) (k ty msg : String) : Except String Unit :=
  match getField a k with
  | some v => if truthyV v && !(typeofJS v == ty) then .error msg else .ok ()
  | none => .ok ()

def checkReqType (a : JSArgs) (k ty msg : String) : Except String Unit :=
  match getField a k with
  | some v => if !truthyV v || !(typeofJS v == ty) then .error msg else .ok ()
  | none => .error msg

def checkOptArray (a : JSArgs) (k msg : String) : Except String Unit :=
  match getField a k with
  | some v => if isArrayJS v then .ok () else .error msg
  | none => .ok ()

def checkReqArray (a : JSArgs) (k msg : String) : Except String Unit :=
  match getField a k with
  | some v => if !truthyV v || !isArrayJS v then .error msg else .ok ()
  | none => .error msg

def isStrIn (v : JSVal) (allowed : List String) : Bool :=
  match v with
  | .vStr s => allowed.contains s
  | _ => false

def checkEnum (a : JSArgs) (k : String) (allowed : List String) (msg : String) :
    Except String Unit :=
  match getField a k with
  | some v => if truthyV v && !isStrIn v allowed then .error msg else .ok ()
  | none => .ok ()

/-- Named fields visible after destructuring a JS value. -/
def objFields : JSVal → JSArgs
  | .vObj f => f
  | _ => []

def validateToolArguments (toolName : String) (args : Option JSArgs) :
    Except String Unit :=
  match args with
  | none => .ok ()
  | some a =>
    match toolName with
    | "check_cluster_health" =>
      checkOptType a "detailed" "boolean" "detailed parameter must be boolean"
    | "get_performance_metrics" => do
      checkTruthyType a "namespace" "string" "namespace parameter must be string"
      checkTruthyType a "timeRange" "string" "timeRange parameter must be string"
    | "detect_resource_issues" =>
      match getField a "thresholds" with
      | some v =>
        if truthyV v then
          if !(typeofJS v == "object") then .error "thresholds parameter must be object"
          else do
            checkOptType (objFields v) "cpu" "number" "cpu threshold must be number"
            checkOptType (objFields v) "memory" "number" "memory threshold must be number"
            checkOptType (objFields v) "restarts" "number" "restarts threshold must be number"
        else .ok ()
      | none => .ok ()
    | "analyze_pod_disruptions" => do
      checkTruthyType a "namespace" "string" "namespace parameter must be string"
      checkOptType a "hours" "number" "hours parameter must be number"
    | "monitor_deployments" =>
      checkTruthyType a "namespace" "string" "namespace parameter must be string"
    | "check_kubelet_status" => do
      checkOptType a "hoursBack" "number" "hoursBack parameter must be number"
      checkOptType a "includeSystemErrors" "boolean"
        "includeSystemErrors parameter must be boolean"
    | "check_crio_status" => do
      checkOptType a "hoursBack" "number" "hoursBack parameter must be number"
      checkOptType a "includeContainerErrors" "boolean"
        "includeContainerErrors parameter must be boolean"
    | "analyze_journalctl_pod_errors" => do
      checkOptType a "pod" "string" "pod parameter must be string"
      checkOptType a "hoursBack" "number" "hoursBack parameter must be number"
      checkOptType a "service" "string" "service parameter must be string"
      checkOptArray a "errorTypes" "errorTypes parameter must be array"
    | "create_deployment" => do
      checkReqType a "name" "string" "name parameter is required and must be string"
      checkReqType a "image" "string" "image parameter is required and must be string"
      checkTruthyType a "namespace" "string" "namespace parameter must be string"
      checkOptType a "replicas" "number" "replicas parameter must be number"
    | "deploy_database" => do
      checkReqType a "type" "string" "type parameter is required and must be string"
      checkReqType a "name" "string" "name parameter is required and must be string"
    | "create_hpa" =>
      checkReqType a "targetDeployment" "string"
        "targetDeployment parameter is required and must be string"
    | "create_service" => do
      checkReqType a "name" "string" "name parameter is required and must be string"
      checkReqType a "selector" "object" "selector parameter is required and must be object"
      checkReqArray a "ports" "ports parameter is required and must be array"
    | "create_network_policy" => do
      checkReqType a "name" "string" "name parameter is required and must be string"
      checkReqType a "podSelector" "object"
        "podSelector parameter is required and must be object"
    | "run_kube_burner" => do
      checkEnum a "testType"
        ["cluster-density-v2", "node-density", "pvc-density", "crd-scale"]
        "testType must be one of: cluster-density-v2, node-density, pvc-density, crd-scale"
      match getField a "iterations" with
      | some v =>
        match v with
        | .vNum q =>
          if JSNum.ltB q 1 || JSNum.ltB 100 q then
            .error "iterations must be number between 1 and 100"
          else .ok ()
        | _ => .error "iterations must be number between 1 and 100"
      | none => .ok ()
    | "run_storage_benchmark" =>
      checkEnum a "testType"
        ["sequential-read", "sequential-write", "random-read", "random-write", "mixed"]
        "testType must be one of: sequential-read, sequential-write, random-read, random-write, mixed"
    | "run_network_test" => do
      checkEnum a "testType" ["throughput", "latency", "packet-loss"]
        "testType must be one of: throughput, latency, packet-loss"
      checkEnum a "protocol" ["tcp", "udp"] "protocol must be tcp or udp"
    | "run_cpu_stress_test" =>
      checkEnum a "testType" ["cpu", "memory", "combined"]
        "testType must be one of: cpu, memory, combined"
    | "run_database_benchmark" =>
      match getField a "dbType" with
      | some v =>
        if !truthyV v || !isStrIn v ["postgresql", "mysql"] then
          .error "dbType is required and must be postgresql or mysql"
        else .ok ()
      | none => .error "dbType is required and must be postgresql or mysql"
    | _ => .ok ()

/-! ## The dispatcher (src/index.js lines 665-746)

The `CallToolRequestSchema` handler: validate, switch on the tool name
(invoking the tool's handler method), catch anything thrown and wrap it
as `Error executing <name>: <error.message + " [DEBUG: Raw error]">`.
A handler outcome is abstracted by an environment: every handler in the
source returns `{content:[{type:"text", text}]}` (no `isError` field) on
success and throws on failure. -/

/-- Outcome of invoking one handler method. -/
inductive HandlerOutcome where
  | success (text : String)
  | failure (msg : String)

/-- An assignment of outcomes to handler invocations. -/
def HandlerEnv := String → Option JSArgs → HandlerOutcome

structure ContentItem where
  type : String
  text : String
deriving DecidableEq, Repr

/-- The response envelope; `isError : none` models an absent field. -/
structure ToolResult where
  content : List ContentItem
  isError : Option Bool
deriving DecidableEq, Repr

/-- The 19 tool names of the dispatch switch, in source order. -/
def registeredToolNames : List String :=
  ["check_cluster_health", "get_performance_metrics", "detect_resource_issues",
   "analyze_pod_disruptions", "check_node_conditions", "monitor_deployments",
   "check_kubelet_status", "check_crio_status", "analyze_journalctl_pod_errors",
   "create_deployment", "deploy_database", "create_hpa", "create_service",
   "create_network_policy", "run_kube_burner", "run_storage_benchmark",
   "run_network_test", "run_cpu_stress_test", "run_database_benchmark"]

/-- The catch-block response (src/index.js 735-745): note the raw
    `error.message` with the `" [DEBUG: Raw error]"` suffix. -/
def errResult (name msg : String) : ToolResult :=
  ⟨[⟨"text", "Error executing " ++ name ++ ": " ++ (msg ++ " [DEBUG: Raw error]")⟩],
    some true⟩

/-- The dispatcher; the second component records whether a handler method
    was invoked. -/
def dispatchR (env : HandlerEnv) (name : String) (args : Option JSArgs) :
    ToolResult × Bool :=
  match validateToolArguments name args with
  | .error m => (errResult name m, false)
  | .ok _ =>
    if registeredToolNames.contains name then
      match env name args with
      | .success text => (⟨[⟨"text", text⟩], none⟩, true)
      | .failure m => (errResult name m, true)
    else (errResult name ("Unknown tool: " ++ name), false)

/-- The dispatcher's response. -/
def dispatch (env : HandlerEnv) (name : String) (args : Option JSArgs) : ToolResult :=
  (dispatchR env name args).1

/-! ## Cluster data model and `checkClusterHealth` (src/index.js 918-1029) -/

structure NodeCondition where
  ctype : String
  status : String
  message : String
deriving DecidableEq, Repr

structure K8sNode where
  name : String
  conditions : List NodeCondition
deriving DecidableEq, Repr

structure ContainerStatus where
  name : String
  restartCount : JSNum
  terminatedReason : Option String
deriving DecidableEq, Repr

structure ResourceSpec where
  cpu : Option String
  memory : Option String
deriving DecidableEq, Repr

structure ContainerResources where
  requests : Option ResourceSpec
  limits : Option ResourceSpec
deriving DecidableEq, Repr

structure PodContainer where
  name : String
  resources : Option ContainerResources
deriving DecidableEq, Repr

structure K8sPod where
  name : String
  nsName : String
  phase : String
  creationTimestamp : Option Int
  containerStatuses : List ContainerStatus
  containers : List PodContainer
deriving DecidableEq, Repr

/-- The cluster as seen by the two list calls, plus `Date.now()`. -/
structure ClusterState where
  nodes : List K8sNode
  pods : List K8sPod
  now : Int
deriving Repr

/-- `this.PENDING_POD_TIMEOUT = 5 * 60 * 1000` (milliseconds). -/
def PENDING_POD_TIMEOUT : Int := 5 * 60 * 1000

/-- `this.DEFAULT_RESTART_THRESHOLD = 5`. -/
def DEFAULT_RESTART_THRESHOLD : JSNum := 5

/-- `this.DEFAULT_CPU_THRESHOLD = 80`. -/
def DEFAULT_CPU_THRESHOLD : JSNum := 80

/-- `this.DEFAULT_MEMORY_THRESHOLD = 85`. -/
def DEFAULT_MEMORY_THRESHOLD : JSNum := 85

/-- `calculateAge(timestamp)` (src/index.js 4127-4130), with `Date.now()`
    passed explicitly. -/
def calculateAge (now : Int) (timestamp : Option Int) : Int :=
  match timestamp with
  | none => 0
  | some t => now - t

/-- String form of an integer-valued JS number (all numbers interpolated
    into report strings on the modelled paths are integers). -/
def jsIntStr (q : JSNum) : String :=
  if q.den = 1 then toString q.num
  else toString q.num ++ "/" ++ toString q.den

def isNodeReady (n : K8sNode) : Bool :=
  match n.conditions.find? (fun c => c.ctype == "Ready") with
  | some c => c.status == "True"
  | none => false

/-- Issues contributed by one node (ready check, then other true conditions). -/
def nodeIssueList (n : K8sNode) : List String :=
  (if isNodeReady n then [] else ["Node " ++ n.name ++ " is not ready"]) ++
    (n.conditions.filter (fun c => !(c.ctype == "Ready") && c.status == "True")).map
      (fun c => "Node " ++ n.name ++ ": " ++ c.ctype ++ " - " ++ c.message)

def isPodHealthy (p : K8sPod) : Bool :=
  p.phase == "Running" || p.phase == "Succeeded"

/-- The phase issue of one pod (Pending beyond the age threshold, or Failed). -/
def podPhaseIssue (now : Int) (p : K8sPod) : List String :=
  if isPodHealthy p then []
  else if p.phase == "Failed" || p.phase == "Pending" then
    if p.phase == "Pending" && decide (PENDING_POD_TIMEOUT < calculateAge now p.creationTimestamp) then
      ["Pod " ++ p.name ++ " in " ++ p.nsName ++ " stuck in Pending state"]
    else if p.phase == "Failed" then
      ["Pod " ++ p.name ++ " in " ++ p.nsName ++ " in Failed state"]
    else []
  else []

/-- The per-container restart issues of one pod
    (`container.restartCount > this.DEFAULT_RESTART_THRESHOLD`). -/
def podRestartIssues (p : K8sPod) : List String :=
  (p.containerStatuses.filter (fun c => JSNum.ltB DEFAULT_RESTART_THRESHOLD c.restartCount)).map
    (fun c => "Container " ++ c.name ++ " in pod " ++ p.name ++ " has "
      ++ jsIntStr c.restartCount ++ " restarts")

structure HealthReport where
  overall : String
  issues : List String
  nodeHealth : JSNum
  podHealth : JSNum
  totalNodes : Nat
  healthyNodes : Nat
  totalPods : Nat
  healthyPods : Nat
deriving DecidableEq, Repr

/-- `checkClusterHealth` (src/index.js 918-1029): issue collection, health
    percentages, and the three-level overall classification.  (The final
    JSON text rendering of the summary is not modelled; the claims are
    about the computed report.) -/
def checkClusterHealth (cs : ClusterState) : HealthReport :=
  let issues := (cs.nodes.flatMap nodeIssueList) ++
    (cs.pods.flatMap (fun p => podPhaseIssue cs.now p ++ podRestartIssues p))
  let healthyNodes := (cs.nodes.filter isNodeReady).length
  let healthyPods := (cs.pods.filter isPodHealthy).length
  let nodeHealth : JSNum :=
    if 0 < cs.nodes.length then
      JSNum.mk healthyNodes 1 / JSNum.mk cs.nodes.length 1 * (100 : JSNum)
    else 0
  let podHealth : JSNum :=
    if 0 < cs.pods.length then
      JSNum.mk healthyPods 1 / JSNum.mk cs.pods.length 1 * (100 : JSNum)
    else 0
  let overall :=
    if issues.length = 0 then "healthy"
    else if issues.length ≤ 3 && JSNum.ltB 90 nodeHealth && JSNum.ltB 95 podHealth then
      "warning"
    else "critical"
  ⟨overall, issues, nodeHealth, podHealth, cs.nodes.length, healthyNodes,
    cs.pods.length, healthyPods⟩

/-! ## `detectResourceIssues` (src/index.js 1175-1256) -/

structure Thresholds where
  cpu : JSNum
  memory : JSNum
  restarts : JSNum
deriving DecidableEq, Repr

/-- Optional per-call overrides (the `thresholds` argument). -/
structure ThresholdArgs where
  cpu : Option JSNum
  memory : Option JSNum
  restarts : Option JSNum
deriving Repr

/-- `{...defaultThresholds, ...thresholds}`. -/
def mergeThresholds (t : ThresholdArgs) : Thresholds :=
  ⟨t.cpu.getD DEFAULT_CPU_THRESHOLD,
   t.memory.getD DEFAULT_MEMORY_THRESHOLD,
   t.restarts.getD DEFAULT_RESTART_THRESHOLD⟩

structure RestartEntry where
  name : String
  nsName : String
  restarts : JSNum
  containers : List (String × JSNum × Option String)
deriving DecidableEq, Repr

structure UtilEntry where
  pod : String
  nsName : String
  container : String
  pct : JSNum
deriving DecidableEq, Repr

structure ResourceIssues where
  highCpuPods : List UtilEntry
  highMemoryPods : List UtilEntry
  frequentRestartPods : List RestartEntry
deriving DecidableEq, Repr

/-- `x || '0'` on an optional resource string. -/
def orZero (o : Option String) : String :=
  match o with
  | some s => if s == "" then "0" else s
  | none => "0"

/-- Total restart count of a pod (`reduce((sum, c) => sum + c.restartCount, 0)`). -/
def totalRestarts (p : K8sPod) : JSNum :=
  p.containerStatuses.foldl (fun sum c => sum + c.restartCount) 0

/-- The frequent-restart entry of one pod, when the summed restart count
    reaches the threshold (`totalRestarts >= finalThresholds.restarts`). -/
def restartEntry (th : Thresholds) (p : K8sPod) : List RestartEntry :=
  if JSNum.leB th.restarts (totalRestarts p) then
    [⟨p.name, p.nsName, totalRestarts p,
      p.containerStatuses.map (fun c => (c.name, c.restartCount, c.terminatedReason))⟩]
  else []

/-- The request/limit ratio entries of one pod. -/
def utilEntries (th : Thresholds) (p : K8sPod) : List UtilEntry × List UtilEntry :=
  (p.containers.flatMap (fun c =>
    match c.resources with
    | some res =>
      match res.requests, res.limits with
      | some req, some lim =>
        let cpuRequest := parseResourceValue (orZero req.cpu)
        let cpuLimit := parseResourceValue (orZero lim.cpu)
        if JSNum.ltB 0 cpuLimit && JSNum.ltB th.cpu (cpuRequest / cpuLimit * (100 : JSNum)) then
          [⟨p.name, p.nsName, c.name, cpuRequest / cpuLimit * (100 : JSNum)⟩]
        else []
      | _, _ => []
    | none => []),
   p.containers.flatMap (fun c =>
    match c.resources with
    | some res =>
      match res.requests, res.limits with
      | some req, some lim =>
        let memRequest := parseResourceValue (orZero req.memory)
        let memLimit := parseResourceValue (orZero lim.memory)
        if JSNum.ltB 0 memLimit && JSNum.ltB th.memory (memRequest / memLimit * (100 : JSNum)) then
          [⟨p.name, p.nsName, c.name, memRequest / memLimit * (100 : JSNum)⟩]
        else []
      | _, _ => []
    | none => []))

/-- `detectResourceIssues` (src/index.js 1175-1256); the report object. -/
def detectResourceIssues (t : ThresholdArgs) (pods : List K8sPod) : ResourceIssues :=
  let th := mergeThresholds t
  ⟨pods.flatMap (fun p => (utilEntries th p).1),
   pods.flatMap (fun p => (utilEntries th p).2),
   pods.flatMap (restartEntry th)⟩

/-! ## `runKubeBurner` (src/index.js 2935-3140)

Command execution is an oracle from the command string to a result;
elapsed-time values (used only inside `duration` strings) are abstracted
by a single `elapsedS` field.  The returned pair is (outcome, the list of
commands handed to `exec`, in order). -/

structure ExecRes where
  ok : Bool
  stdout : String
  stderr : String
  emsg : String
deriving Repr

structure KBEnv where
  exec : String → ExecRes
  elapsedS : Nat

/-- Exact substring test (JS `String.prototype.includes`). -/
def containsSub (needle hay : List Char) : Bool :=
  (List.range (hay.length + 1)).any (fun i => (hay.drop i).take needle.length == needle)

def strIncludes (hay needle : String) : Bool := containsSub needle.data hay.data

/-- JS `String.prototype.trim`. -/
def trimS (s : String) : String :=
  String.mk (((s.data.dropWhile jsWs).reverse.dropWhile jsWs).reverse)

/-- `parseInt(s) || 0`. -/
def parseIntOrZero (s : String) : JSNum :=
  let t := s.data.dropWhile jsWs
  match t with
  | '-' :: r =>
    let ds := r.takeWhile isDigitCh
    if ds.isEmpty then 0 else ⟨-(digitsVal ds : Int), 1⟩
  | '+' :: r =>
    let ds := r.takeWhile isDigitCh
    if ds.isEmpty then 0 else ⟨(digitsVal ds : Int), 1⟩
  | r =>
    let ds := r.takeWhile isDigitCh
    if ds.isEmpty then 0 else ⟨(digitsVal ds : Int), 1⟩

structure KBCreation where
  podsCreated : JSNum
  testType : String
  duration : String
  status : String
deriving DecidableEq, Repr

structure KBCleanup where
  status : String
  podsDeleted : Option JSNum
  duration : Option String
deriving DecidableEq, Repr

structure KBResults where
  testType : String
  iterations : JSNum
  nsName : String
  timeoutStr : String
  operation : String
  status : String
  creation : Option KBCreation
  cleanup : Option KBCleanup
deriving DecidableEq, Repr

/-- The per-pod manifest of the node-density branch (src/index.js 3034-3053). -/
def nodeDensityPodManifest (ns : String) (i : Nat) : String :=
  "apiVersion: v1\nkind: Pod\nmetadata:\n  name: density-test-pod-" ++ toString i ++
  "\n  namespace: " ++ ns ++
  "\n  labels:\n    app: node-density-test\n    test-iteration: \"" ++ toString i ++
  "\"\nspec:\n  containers:\n  - name: pause\n    image: registry.k8s.io/pause:3.8\n" ++
  "    resources:\n      requests:\n        memory: \"10Mi\"\n        cpu: \"1m\"\n" ++
  "      limits:\n        memory: \"20Mi\"\n        cpu: \"10m\"\n  restartPolicy: Never"

/-- The per-pod manifest of the other test types (src/index.js 3075-3094). -/
def clusterDensityPodManifest (ns testType : String) (i : Nat) : String :=
  "apiVersion: v1\nkind: Pod\nmetadata:\n  name: test-pod-" ++ toString i ++
  "\n  namespace: " ++ ns ++
  "\n  labels:\n    app: " ++ testType ++ "-test\n    test-iteration: \"" ++ toString i ++
  "\"\nspec:\n  containers:\n  - name: pause\n    image: registry.k8s.io/pause:3.8\n" ++
  "    resources:\n      requests:\n        memory: \"10Mi\"\n        cpu: \"1m\"\n" ++
  "      limits:\n        memory: \"20Mi\"\n        cpu: \"10m\"\n  restartPolicy: Never"

/-- `echo '<manifest>' | kubectl apply -f - --kubeconfig <path>`. -/
def kbApplyCmd (manifest path : String) : String :=
  "echo '" ++ manifest ++ "' | kubectl apply -f - --kubeconfig " ++ path

/-- `for (let i = 1; i <= podCount; i++)`: the number of iterations. -/
def loopCount (q : JSNum) : Nat := q.floorNat

/-- The creation loop: apply manifests `i, i+1, ...` (`n` of them); stops at
    the first failing command (whose error propagates). -/
def kbApplyLoop (env : KBEnv) (mkCmd : Nat → String) :
    Nat → Nat → Except String Unit × List String
  | _, 0 => (.ok (), [])
  | i, n + 1 =>
    let cmd := mkCmd i
    let r := env.exec cmd
    if r.ok then
      let (e, log) := kbApplyLoop env mkCmd (i + 1) n
      (e, cmd :: log)
    else (.error r.emsg, [cmd])

/-- The CLEANUP OPERATION block (src/index.js 2963-3010).  The returned
    `Bool` is true when the block performed the early `operation ===
    'cleanup'` return. -/
def kbCleanupPhase (env : KBEnv) (path ns : String) (res : KBResults)
    (operation : String) : Except String (Bool × KBResults) × List String :=
  let catchClean : ExecRes → List String → Except String (Bool × KBResults) × List String :=
    fun r log =>
      if strIncludes r.stdout "NotFound" || strIncludes r.stderr "not found" then
        (.ok (false, {res with cleanup := some ⟨"Namespace not found - already clean", none, none⟩}), log)
      else (.error ("Cleanup failed: " ++ r.emsg), log)
  let cmdGet := "kubectl get namespace " ++ ns ++ " --kubeconfig " ++ path
  let rGet := env.exec cmdGet
  if rGet.ok then
    let cmdCount := "kubectl get pods -n " ++ ns ++ " --no-headers --kubeconfig "
      ++ path ++ " | wc -l"
    let rCount := env.exec cmdCount
    if rCount.ok then
      let podCount := parseIntOrZero (trimS rCount.stdout)
      let cmdDel := "kubectl delete namespace " ++ ns ++
        " --wait=true --timeout=300s --kubeconfig " ++ path
      let rDel := env.exec cmdDel
      if rDel.ok then
        let cl : KBCleanup :=
          ⟨"Completed", some podCount, some (toString env.elapsedS ++ "s")⟩
        let res' := {res with cleanup := some cl}
        if operation == "cleanup" then
          (.ok (true, {res' with status := "Completed"}), [cmdGet, cmdCount, cmdDel])
        else (.ok (false, res'), [cmdGet, cmdCount, cmdDel])
      else catchClean rDel [cmdGet, cmdCount, cmdDel]
    else catchClean rCount [cmdGet, cmdCount]
  else catchClean rGet [cmdGet]

/-- The CREATE OPERATION block (src/index.js 3012-3126). -/
def kbCreatePhase (env : KBEnv) (path ns testType : String) (iterations : JSNum)
    (cleanup : Bool) (operation : String) (res : KBResults) :
    Except String KBResults × List String :=
  let cmdNs := "kubectl create namespace " ++ ns ++ " --kubeconfig " ++ path
  let _rNs := env.exec cmdNs
  let afterCreate : KBResults → List String → Except String KBResults × List String :=
    fun r log =>
      if cleanup && operation == "create" then
        let cmdDel := "kubectl delete namespace " ++ ns ++
          " --wait=true --timeout=300s --kubeconfig " ++ path
        let rDel := env.exec cmdDel
        if rDel.ok then
          (.ok {r with cleanup := some ⟨"Automatic cleanup completed", none, none⟩},
            log ++ [cmdDel])
        else
          (.ok {r with cleanup := some ⟨"Cleanup failed: " ++ rDel.emsg, none, none⟩},
            log ++ [cmdDel])
      else (.ok r, log)
  if testType == "node-density" then
    let podCount := iterations * (10 : JSNum)
    match kbApplyLoop env (fun i => kbApplyCmd (nodeDensityPodManifest ns i) path)
        1 (loopCount podCount) with
    | (.error m, log) => (.error m, cmdNs :: log)
    | (.ok _, log) =>
      let cr : KBCreation :=
        ⟨podCount, "node-density", toString env.elapsedS ++ "s", "Completed"⟩
      afterCreate {res with creation := some cr} (cmdNs :: log)
  else
    let podCount := iterations * (5 : JSNum)
    match kbApplyLoop env (fun i => kbApplyCmd (clusterDensityPodManifest ns testType i) path)
        1 (loopCount podCount) with
    | (.error m, log) => (.error m, cmdNs :: log)
    | (.ok _, log) =>
      let cr : KBCreation :=
        ⟨podCount, testType, toString env.elapsedS ++ "s", "Completed"⟩
      afterCreate {res with creation := some cr} (cmdNs :: log)

/-- `runKubeBurner(args)` (src/index.js 2935-3140), over the destructured
    arguments (defaults applied by the caller as in the source).  The outer
    catch rewraps any thrown message. -/
def runKubeBurner (env : KBEnv) (kubeconfigPath testType : String) (iterations : JSNum)
    (nsName timeoutStr : String) (cleanup : Bool) (operation : String) :
    Except String KBResults × List String :=
  let res0 : KBResults :=
    ⟨testType, iterations, nsName, timeoutStr, operation, "Started", none, none⟩
  let inner : Except String KBResults × List String :=
    if !(["create", "cleanup", "both"].contains operation) then
      (.error "operation must be one of: create, cleanup, both", [])
    else if operation == "cleanup" || operation == "both" then
      match kbCleanupPhase env kubeconfigPath nsName res0 operation with
      | (.error m, log) => (.error m, log)
      | (.ok (true, r), log) => (.ok r, log)
      | (.ok (false, r), log) =>
        if operation == "create" || operation == "both" then
          match kbCreatePhase env kubeconfigPath nsName testType iterations
              cleanup operation r with
          | (.error m, log2) => (.error m, log ++ log2)
          | (.ok r2, log2) => (.ok {r2 with status := "Completed"}, log ++ log2)
        else (.ok {r with status := "Completed"}, log)
    else
      match kbCreatePhase env kubeconfigPath nsName testType iterations
          cleanup operation res0 with
      | (.error m, log) => (.error m, log)
      | (.ok r2, log) => (.ok {r2 with status := "Completed"}, log)
  match inner with
  | (.error m, log) => (.error ("Failed to run kube-burner operation: " ++ m), log)
  | ok => ok

/-! ## `checkKubeletStatus` per-node loop (src/index.js 1812-1909)

The pre-loop step (listing the cluster nodes and JSON-parsing the node
names) is abstracted as the `nodes` input; command execution is the same
oracle shape as for `runKubeBurner`.  `new Date().toISOString()` is the
`nowISO` configuration field. -/

structure KubeletConfig where
  needsRemoteAccess : Bool
  sshHost : String
  sshKey : String
  sshUser : String
  kubeconfigPath : String
  nowISO : String
deriving Repr

/-- `cmdStr.replace(/"/g, '\\"')`. -/
def escQuotes (s : String) : String :=
  String.mk (s.data.flatMap (fun c => if c = '"' then ['\\', '"'] else [c]))

/-- The `oc debug node/<node>` wrapper, in local or bastion form
    (src/index.js 1820-1827 and parallels). -/
def ocDebugCmd (cfg : KubeletConfig) (node cmdStr : String) : String :=
  if cfg.needsRemoteAccess then
    "ssh -i " ++ cfg.sshKey ++
    " -o StrictHostKeyChecking=no -o UserKnownHostsFile=/dev/null -o LogLevel=ERROR " ++
    cfg.sshUser ++ "@" ++ cfg.sshHost ++ " \"cd /opt/openshift-mcp-server && KUBECONFIG=" ++
    cfg.kubeconfigPath ++ " timeout 90s oc debug node/" ++ node ++
    " -- chroot /host bash -c \\\"" ++ escQuotes cmdStr ++ "\\\"\""
  else
    "cd /opt/openshift-mcp-server && KUBECONFIG=" ++ cfg.kubeconfigPath ++
    " timeout 90s oc debug node/" ++ node ++ " -- chroot /host bash -c \"" ++ cmdStr ++ "\""

def kubeletStatusCommand : String :=
  "systemctl is-active kubelet.service 2>/dev/null || echo \"inactive\""

def kubeletLogsCommand (hoursBack : JSNum) : String :=
  "journalctl -u kubelet.service --since=\"-" ++ jsIntStr hoursBack ++
  "h\" --lines=50 --no-pager"

def kubeletSystemCommand (hoursBack : JSNum) : String :=
  "journalctl --since=\"-" ++ jsIntStr hoursBack ++
  "h\" --lines=20 --no-pager | grep -i \x27systemd\\|kernel\\|oom\x27"

/-- `s.split('\n')` over char lists. -/
def splitNl : List Char → List (List Char)
  | [] => [[]]
  | '\n' :: rest => [] :: splitNl rest
  | c :: rest =>
    match splitNl rest with
    | [] => [[c]]
    | h :: t => (c :: h) :: t

def splitLinesS (s : String) : List String := (splitNl s.data).map String.mk

/-- `hay.toLowerCase().includes(needle)` for an ASCII-lowercase needle. -/
def jsIncludesCI (needle hay : String) : Bool :=
  containsSub needle.data (hay.data.map lowChar)

def isWordCh (c : Char) : Bool :=
  ('a' ≤ c && c ≤ 'z') || ('A' ≤ c && c ≤ 'Z') || ('0' ≤ c && c ≤ '9') || c = '_'

/-- The timestamp prefix regex `/^\w+ \d+ \d+:\d+:\d+/`. -/
def matchTs (l : List Char) : Option (List Char) :=
  let w := l.takeWhile isWordCh
  if w.isEmpty then none else
  match l.drop w.length with
  | ' ' :: r1 =>
    let d1 := r1.takeWhile isDigitCh
    if d1.isEmpty then none else
    match r1.drop d1.length with
    | ' ' :: r2 =>
      let d2 := r2.takeWhile isDigitCh
      if d2.isEmpty then none else
      match r2.drop d2.length with
      | ':' :: r3 =>
        let d3 := r3.takeWhile isDigitCh
        if d3.isEmpty then none else
        match r3.drop d3.length with
        | ':' :: r4 =>
          let d4 := r4.takeWhile isDigitCh
          if d4.isEmpty then none
          else some (w ++ [' '] ++ d1 ++ [' '] ++ d2 ++ [':'] ++ d3 ++ [':'] ++ d4)
        | _ => none
      | _ => none
    | _ => none
  | _ => none

structure KLogEntry where
  node : String
  timestamp : String
  level : String
  message : String
deriving DecidableEq, Repr

structure KubeletReport where
  status : List (String × String)
  logs : List KLogEntry
  systemErrors : List (String × String)
deriving DecidableEq, Repr

/-- JS object assignment `obj[k] = v` on an insertion-ordered field list. -/
def upsert (l : List (String × String)) (k v : String) : List (String × String) :=
  if l.any (fun p => p.1 == k) then
    l.map (fun p => if p.1 == k then (k, v) else p)
  else l ++ [(k, v)]

/-- The error/warn line scan of one node's kubelet journal
    (src/index.js 1856-1867). -/
def kubeletLogLineEntries (node : String) (lines : List String) : List KLogEntry :=
  (lines.filter (fun line =>
      jsIncludesCI "error" line || jsIncludesCI "failed" line || jsIncludesCI "warn" line)).map
    (fun line =>
      ⟨node,
        (match matchTs line.data with
         | some ts => String.mk ts
         | none => "unknown"),
        (if jsIncludesCI "error" line || jsIncludesCI "failed" line then "error"
         else "warning"),
        line⟩)

/-- One iteration of the per-node loop, with its try/catch: any failure of
    the status probe or the log query marks the node inaccessible and the
    loop continues (src/index.js 1812-1909). -/
def checkOneNode (cfg : KubeletConfig) (env : String → ExecRes) (hoursBack : JSNum)
    (includeSystemErrors : Bool) (acc : KubeletReport) (node : String) : KubeletReport :=
  let catchNode : KubeletReport → String → KubeletReport := fun a msg =>
    {a with
      status := upsert a.status node "inaccessible",
      logs := a.logs ++ [⟨node, cfg.nowISO, "error",
        "Cannot access kubelet service on node " ++ node ++ ": " ++ msg⟩]}
  let rSt := env (ocDebugCmd cfg node kubeletStatusCommand)
  if rSt.ok then
    let acc1 := {acc with status := upsert acc.status node (trimS rSt.stdout)}
    let rLogs := env (ocDebugCmd cfg node (kubeletLogsCommand hoursBack))
    if rLogs.ok then
      let logLines := (splitLinesS rLogs.stdout).filter (fun l => !(trimS l == ""))
      let acc2 := {acc1 with logs := acc1.logs ++ kubeletLogLineEntries node logLines}
      if includeSystemErrors then
        let rSys := env (ocDebugCmd cfg node (kubeletSystemCommand hoursBack))
        if rSys.ok then
          let sysLines := (splitLinesS rSys.stdout).filter (fun l => !(trimS l == ""))
          {acc2 with systemErrors := acc2.systemErrors ++ sysLines.map (fun l => (node, l))}
        else acc2
      else acc2
    else catchNode acc1 rLogs.emsg
  else catchNode acc rSt.emsg

/-- The whole per-node loop of `checkKubeletStatus`. -/
def checkKubeletStatusLoop (cfg : KubeletConfig) (env : String → ExecRes)
    (hoursBack : JSNum) (includeSystemErrors : Bool) (nodes : List String) :
    KubeletReport :=
  nodes.foldl (checkOneNode cfg env hoursBack includeSystemErrors) ⟨[], [], []⟩

/-! ## `createDeployment` builder (src/index.js 2158-2203)

The deployment YAML template and the kubectl command string, with the
source's `||` default chains.  The `replicas` and `containerPort` numbers
are integer-valued on every modelled path. -/

/-- `x || d` on an optional string (empty string is falsy). -/
def orStr (o : Option String) (d : String) : String :=
  match o with
  | some s => if s == "" then d else s
  | none => d

/-- `a || b || d`. -/
def orStr2 (a b : Option String) (d : String) : String :=
  match a with
  | some s => if s == "" then orStr b d else s
  | none => orStr b d

def joinNl : List String → String
  | [] => ""
  | [x] => x
  | x :: xs => x ++ "\n" ++ joinNl xs

/-- The interpolated deployment manifest (src/index.js 2158-2189). -/
def deploymentYaml (name ns image : String) (replicas : JSNum)
    (ports : List (JSNum × Option String))
    (cpuRequest memRequest cpuLimit memLimit : Option String) : String :=
  "apiVersion: apps/v1\nkind: Deployment\nmetadata:\n  name: " ++ name ++
  "\n  namespace: " ++ ns ++
  "\n  labels:\n    app: " ++ name ++
  "\n    managed-by: openshift-mcp-server\nspec:\n  replicas: " ++ jsIntStr replicas ++
  "\n  selector:\n    matchLabels:\n      app: " ++ name ++
  "\n  template:\n    metadata:\n      labels:\n        app: " ++ name ++
  "\n    spec:\n      containers:\n      - name: " ++ name ++
  "\n        image: " ++ image ++
  "\n        ports:\n" ++
  joinNl (ports.map (fun p =>
    "        - containerPort: " ++ jsIntStr p.1 ++
    "\n          protocol: " ++ orStr p.2 "TCP")) ++
  "\n        resources:\n          requests:\n            cpu: \"" ++
  orStr cpuRequest "100m" ++
  "\"\n            memory: \"" ++ orStr memRequest "128Mi" ++
  "\"\n          limits:\n            cpu: \"" ++ orStr2 cpuLimit cpuRequest "100m" ++
  "\"\n            memory: \"" ++ orStr2 memLimit memRequest "128Mi" ++ "\"\n"

/-- The kubectl apply command (src/index.js 2192-2203). -/
def createDeploymentCmd (useRemoteAccess : Bool)
    (sshHost sshKey sshUser kubeconfig yaml : String) : String :=
  if useRemoteAccess then
    "ssh -i " ++ sshKey ++ " -o StrictHostKeyChecking=no " ++ sshUser ++ "@" ++ sshHost ++
    " \"echo \x27" ++ yaml ++ "\x27 | KUBECONFIG=" ++ kubeconfig ++ " kubectl apply -f -\""
  else
    "echo \x27" ++ yaml ++ "\x27 | kubectl apply -f -"

/-- Modelled from the spec: the DNS-1123 label allow-list pattern that §4.4
    requires user-controlled names/namespaces to satisfy before
    interpolation (lowercase alphanumerics and `-`, alphanumeric at both
    ends, at most 63 characters).  No such validation exists in the source;
    this predicate only serves to state the claim. -/
def dns1123Label (s : String) : Bool :=
  let l := s.data
  let alnum := fun c => ('a' ≤ c && c ≤ 'z') || ('0' ≤ c && c ≤ '9')
  let okCh := fun c => alnum c || c = '-'
  !l.isEmpty && l.length ≤ 63 && l.all okCh &&
    (match l.head? with | some c => alnum c | none => false) &&
    (match l.getLast? with | some c => alnum c | none => false)

/-! # Theorems for the claims -/

deriving instance DecidableEq for Except

set_option maxRecDepth 8000

/-- **C9**: the resource-value parser's canonical conversions:
`parseResourceValue("500m") == 0.5` (millicores to cores),
`parseResourceValue("128Mi") == 128*1024*1024`,
`parseResourceValue("") == 0`, and `parseResourceValue("1G") == 1_000_000_000`. -/
theorem parseResourceValue_canonical :
    (parseResourceValue "500m").toRat = 1 / 2 ∧
    (parseResourceValue "128Mi").toRat = 128 * 1024 * 1024 ∧
    (parseResourceValue "").toRat = 0 ∧
    (parseResourceValue "1G").toRat = 1000000000 := by
  refine ⟨?_, ?_, ?_, ?_⟩
  · rw [show parseResourceValue "500m" = ⟨500, 1000⟩ from by decide]
    norm_num [JSNum.toRat]
  · rw [show parseResourceValue "128Mi" = ⟨134217728, 1⟩ from by decide]
    norm_num [JSNum.toRat]
  · rw [show parseResourceValue "" = ⟨0, 1⟩ from by decide]
    norm_num [JSNum.toRat]
  · rw [show parseResourceValue "1G" = ⟨1000000000, 1⟩ from by decide]
    norm_num [JSNum.toRat]

/-- **C8**: the error-message sanitizer is idempotent —
`sanitize(sanitize(x)) == sanitize(x)` for every string — and no substring
matching `token=...`, `password=...` or `secret=...` (case-insensitively)
occurs anywhere in its output. -/
theorem sanitizeErrorMessage_idempotent_and_redacting :
    (∀ x : String, sanitizeErrorMessage (sanitizeErrorMessage x) = sanitizeErrorMessage x) ∧
    (∀ (x : String) (i : Nat),
      ciStarts "token=".data ((sanitizeErrorMessage x).data.drop i) = false ∧
      ciStarts "password=".data ((sanitizeErrorMessage x).data.drop i) = false ∧
      ciStarts "secret=".data ((sanitizeErrorMessage x).data.drop i) = false) := by
  constructor
  · intro x
    exact congrArg String.mk (sanitizeList_idem x.data)
  · intro x i
    have hdata : (sanitizeErrorMessage x).data = sanitizeList x.data := rfl
    refine ⟨?_, ?_, ?_⟩
    · rw [hdata, show "token=".data = tokenW ++ ['='] from by decide]
      exact sanitizeList_no_token x.data i
    · rw [hdata, show "password=".data = passwordW ++ ['='] from by decide]
      exact sanitizeList_no_password x.data i
    · rw [hdata, show "secret=".data = secretW ++ ['='] from by decide]
      exact sanitizeList_no_secret x.data i

lemma checkClusterHealth_overall_eq (cs : ClusterState) :
    (checkClusterHealth cs).overall =
      (if (checkClusterHealth cs).issues.length = 0 then "healthy"
       else if (checkClusterHealth cs).issues.length ≤ 3
           && JSNum.ltB 90 (checkClusterHealth cs).nodeHealth
           && JSNum.ltB 95 (checkClusterHealth cs).podHealth then "warning"
       else "critical") := rfl

/-- **C5**: the cluster health check classifies overall status from the
collected issue list and the health percentages: zero issues → `healthy`;
otherwise at most 3 issues with node health strictly above 90 and pod
health strictly above 95 → `warning`; every other combination → `critical`
(in particular 4 or more issues, regardless of the percentages). -/
theorem checkClusterHealth_classification (cs : ClusterState) :
    ((checkClusterHealth cs).issues.length = 0 →
      (checkClusterHealth cs).overall = "healthy") ∧
    ((checkClusterHealth cs).issues.length ≠ 0 →
      (checkClusterHealth cs).issues.length ≤ 3 →
      JSNum.ltB 90 (checkClusterHealth cs).nodeHealth = true →
      JSNum.ltB 95 (checkClusterHealth cs).podHealth = true →
      (checkClusterHealth cs).overall = "warning") ∧
    ((checkClusterHealth cs).issues.length ≠ 0 →
      ¬((checkClusterHealth cs).issues.length ≤ 3 ∧
        JSNum.ltB 90 (checkClusterHealth cs).nodeHealth = true ∧
        JSNum.ltB 95 (checkClusterHealth cs).podHealth = true) →
      (checkClusterHealth cs).overall = "critical") ∧
    (4 ≤ (checkClusterHealth cs).issues.length →
      (checkClusterHealth cs).overall = "critical") := by
  refine ⟨?_, ?_, ?_, ?_⟩
  · intro h0
    rw [checkClusterHealth_overall_eq, if_pos h0]
  · intro h0 h1 h2 h3
    rw [checkClusterHealth_overall_eq, if_neg h0, if_pos (by simp [h1, h2, h3])]
  · intro h0 hng
    rw [checkClusterHealth_overall_eq, if_neg h0, if_neg ?_]
    intro hcond
    have h' := (by simpa using hcond :
      ((checkClusterHealth cs).issues.length ≤ 3 ∧
        JSNum.ltB 90 (checkClusterHealth cs).nodeHealth = true) ∧
        JSNum.ltB 95 (checkClusterHealth cs).podHealth = true)
    exact hng ⟨h'.1.1, h'.1.2, h'.2⟩
  · intro h4
    rw [checkClusterHealth_overall_eq, if_neg (by omega), if_neg ?_]
    intro hcond
    have h' := (by simpa using hcond :
      ((checkClusterHealth cs).issues.length ≤ 3 ∧
        JSNum.ltB 90 (checkClusterHealth cs).nodeHealth = true) ∧
        JSNum.ltB 95 (checkClusterHealth cs).podHealth = true)
    have := h'.1.1
    omega

/-- Witness for C5: a healthy, a warning, and two critical instances. -/
def csHealthyEx : ClusterState :=
  ⟨[⟨"n1", [⟨"Ready", "True", ""⟩]⟩], [], 0⟩

def runningPodEx (i : Nat) : K8sPod :=
  ⟨"p" ++ toString i, "default", "Running", none, [], []⟩

def failedPodEx (i : Nat) : K8sPod :=
  ⟨"f" ++ toString i, "default", "Failed", none, [], []⟩

def csWarningEx : ClusterState :=
  ⟨[⟨"n1", [⟨"Ready", "True", ""⟩]⟩],
   (List.range 24).map runningPodEx ++ [failedPodEx 0], 0⟩

def csCritical4Ex : ClusterState :=
  ⟨[⟨"n1", [⟨"Ready", "True", ""⟩]⟩], (List.range 4).map failedPodEx, 0⟩

def csCriticalEx : ClusterState :=
  ⟨[], [failedPodEx 0], 0⟩

theorem checkClusterHealth_classification_witness :
    (checkClusterHealth csHealthyEx).overall = "healthy" ∧
    (checkClusterHealth csWarningEx).overall = "warning" ∧
    (checkClusterHealth csCriticalEx).overall = "critical" ∧
    (checkClusterHealth csCritical4Ex).overall = "critical" :=
  ⟨(checkClusterHealth_classification csHealthyEx).1 (by decide),
   (checkClusterHealth_classification csWarningEx).2.1 (by decide) (by decide)
     (by decide) (by decide),
   (checkClusterHealth_classification csCriticalEx).2.2.1 (by decide) (by decide),
   (checkClusterHealth_classification csCritical4Ex).2.2.2 (by decide)⟩

/-- The boundary example for C10: a Running pod whose two containers have
    2 and 3 restarts (total exactly 5). -/
def pod5Ex : K8sPod :=
  ⟨"p", "default", "Running", none, [⟨"c1", 2, none⟩, ⟨"c2", 3, none⟩], []⟩

/-- **C10**: the two restart checks use different bounds.
`detectResourceIssues` flags a pod exactly when the summed restart count of
its containers is `>=` the restarts threshold (default 5), while
`checkClusterHealth` records a restart issue for a container only when that
container's individual count is strictly `>` 5; hence a pod whose total
equals the threshold is flagged by the former but produces no issue in the
latter. -/
theorem restart_threshold_mismatch :
    (∀ (t : ThresholdArgs) (p : K8sPod),
      (detectResourceIssues t [p]).frequentRestartPods ≠ [] ↔
        JSNum.leB (mergeThresholds t).restarts (totalRestarts p) = true) ∧
    (∀ p : K8sPod,
      podRestartIssues p ≠ [] ↔
        ∃ c ∈ p.containerStatuses, JSNum.ltB (5 : JSNum) c.restartCount = true) ∧
    (∀ cs : ClusterState,
      (checkClusterHealth cs).issues =
        cs.nodes.flatMap nodeIssueList ++
          cs.pods.flatMap (fun p => podPhaseIssue cs.now p ++ podRestartIssues p)) ∧
    (totalRestarts pod5Ex = ⟨5, 1⟩ ∧
      (detectResourceIssues ⟨none, none, none⟩ [pod5Ex]).frequentRestartPods ≠ [] ∧
      (checkClusterHealth ⟨[], [pod5Ex], 0⟩).issues = []) := by
  refine ⟨?_, ?_, fun _ => rfl, by decide, by decide, by decide⟩
  · intro t p
    by_cases h : JSNum.leB (mergeThresholds t).restarts (totalRestarts p) = true
    · simp [detectResourceIssues, restartEntry, h]
    · simp only [Bool.not_eq_true] at h
      simp [detectResourceIssues, restartEntry, h]
  · intro p
    unfold podRestartIssues
    rw [Ne, List.map_eq_nil_iff, List.filter_eq_nil_iff]
    constructor
    · intro h
      push_neg at h
      obtain ⟨c, hc, hp⟩ := h
      exact ⟨c, hc, by
        have := Bool.not_eq_false _ |>.mp (by simpa using hp)
        simpa [DEFAULT_RESTART_THRESHOLD] using this⟩
    · rintro ⟨c, hc, hp⟩ hall
      have := hall c hc
      rw [show DEFAULT_RESTART_THRESHOLD = (5 : JSNum) from rfl] at this
      simp [hp] at this

/-- A handler environment whose handler throws an error message carrying a
    `token=` credential. -/
def envTokenFail : HandlerEnv := fun _ _ => .failure "Request failed: token=abc123"

/-- **C1** (code bug): at the failing input — a `check_cluster_health` call
whose handler throws `Request failed: token=abc123` — the dispatcher's
catch block emits the raw message (plus a `" [DEBUG: Raw error]"` debug
suffix); `sanitizeErrorMessage` is never applied, although applying it
would have redacted the credential, and no sanitized message can ever
contain a `token=` substring. -/
theorem dispatch_error_path_unsanitized :
    dispatch envTokenFail "check_cluster_health" none =
      ⟨[⟨"text",
        "Error executing check_cluster_health: Request failed: token=abc123 [DEBUG: Raw error]"⟩],
        some true⟩ ∧
    strIncludes
      "Error executing check_cluster_health: Request failed: token=abc123 [DEBUG: Raw error]"
      "token=" = true ∧
    sanitizeErrorMessage "Request failed: token=abc123"
      = "Request failed: token[REDACTED]" ∧
    (∀ (m : String) (i : Nat),
      ciStarts "token=".data ((sanitizeErrorMessage m).data.drop i) = false) := by
  refine ⟨by decide, by decide, ?_, ?_⟩
  · simp only [sanitizeErrorMessage, sanitizeList, scanKw_eval]
    decide
  · intro m i
    rw [show (sanitizeErrorMessage m).data = sanitizeList m.data from rfl,
      show "token=".data = tokenW ++ ['='] from by decide]
    exact sanitizeList_no_token m.data i

/-- A handler environment whose handler always succeeds. -/
def envHealthOk : HandlerEnv := fun _ _ => .success "Cluster Health Report: ok"

/-- **C2** counterexample: on a successful handler outcome the dispatcher
returns the handler's object unchanged, which carries *no* `isError` field
(src/index.js 1017-1024 and every other success return), so the result's
`isError` is absent rather than the boolean `false` that the claim
requires. -/
theorem dispatch_success_isError_absent :
    (dispatch envHealthOk "check_cluster_health" none).isError = none ∧
    (dispatch envHealthOk "check_cluster_health" none).isError ≠ some false := by
  decide

/-- **C2** (amended): dispatch never lets an exception reach the transport
— every outcome is a ToolResult with a single text content item — and
`isError` is `some true` on every error path, while on handler success the
`isError` field is omitted (`none`), not set to `false`. -/
theorem dispatch_total_envelope (env : HandlerEnv) (name : String)
    (args : Option JSArgs) :
    (∃ t, (dispatch env name args).content = [⟨"text", t⟩]) ∧
    ((dispatch env name args).isError = none ∨
      (dispatch env name args).isError = some true) ∧
    (∀ text, validateToolArguments name args = .ok () →
      registeredToolNames.contains name = true →
      env name args = .success text →
      dispatch env name args = ⟨[⟨"text", text⟩], none⟩) := by
  refine ⟨?_, ?_, ?_⟩
  · unfold dispatch dispatchR
    rcases validateToolArguments name args with m | u
    · exact ⟨_, rfl⟩
    · by_cases hreg : registeredToolNames.contains name = true
      · rw [if_pos hreg]
        rcases env name args with text | m
        · exact ⟨text, rfl⟩
        · exact ⟨_, rfl⟩
      · rw [if_neg hreg]
        exact ⟨_, rfl⟩
  · unfold dispatch dispatchR
    rcases validateToolArguments name args with m | u
    · exact Or.inr rfl
    · by_cases hreg : registeredToolNames.contains name = true
      · rw [if_pos hreg]
        rcases env name args with text | m
        · exact Or.inl rfl
        · exact Or.inr rfl
      · rw [if_neg hreg]
        exact Or.inr rfl
  · intro text hval hreg henv
    unfold dispatch dispatchR
    rw [hval, if_pos hreg, henv]

theorem dispatch_total_envelope_witness :
    (∃ t, (dispatch envHealthOk "get_performance_metrics" none).content = [⟨"text", t⟩]) ∧
    dispatch envHealthOk "get_performance_metrics" none =
      ⟨[⟨"text", "Cluster Health Report: ok"⟩], none⟩ :=
  ⟨(dispatch_total_envelope envHealthOk "get_performance_metrics" none).1,
   (dispatch_total_envelope envHealthOk "get_performance_metrics" none).2.2
     "Cluster Health Report: ok" (by decide) (by decide) rfl⟩

/-- A generic always-succeeding handler environment. -/
def envOkGeneric : HandlerEnv := fun _ _ => .success "ok"

/-- **C4** counterexample: a wrong-typed argument — the number `0` for the
string-typed `namespace` of `get_performance_metrics` — passes validation
(the guard `args.namespace && typeof args.namespace !== 'string'` skips
falsy values) and the handler IS invoked; likewise an absent argument
object skips validation entirely (`if (!args) return;`), so
`create_deployment` with no arguments also reaches its handler despite its
required fields. -/
theorem dispatch_wrong_type_invokes_handler :
    validateToolArguments "get_performance_metrics"
      (some [("namespace", .vNum 0)]) = .ok () ∧
    (dispatchR envOkGeneric "get_performance_metrics"
      (some [("namespace", .vNum 0)])).2 = true ∧
    validateToolArguments "create_deployment" none = .ok () ∧
    (dispatchR envOkGeneric "create_deployment" none).2 = true := by
  decide

/-- **C4** (amended): dispatching an unregistered tool name yields
`isError:true` ("Unknown tool: ...") without invoking any handler; for a
registered tool, an argument set rejected by the validator yields
`isError:true` carrying the validator's field-naming message and never
invokes the handler — however validation is skipped when the argument
object is absent, and the truthiness-guarded checks skip falsy wrong-typed
values, which therefore reach the handler (e.g. `namespace: 0`). -/
theorem dispatch_validation_behavior :
    (∀ (env : HandlerEnv) (name : String) (args : Option JSArgs),
      registeredToolNames.contains name = false →
      dispatchR env name args =
        (errResult name ("Unknown tool: " ++ name), false)) ∧
    (∀ (env : HandlerEnv) (name : String) (args : Option JSArgs) (m : String),
      validateToolArguments name args = .error m →
      dispatchR env name args = (errResult name m, false)) ∧
    ((dispatchR envOkGeneric "get_performance_metrics"
        (some [("namespace", .vNum 0)])).2 = true ∧
      (dispatchR envOkGeneric "create_deployment" none).2 = true) := by
  refine ⟨?_, ?_, by decide, by decide⟩
  · intro env name args hreg
    have hval : validateToolArguments name args = .ok () := by
      unfold validateToolArguments
      rcases args with _ | a
      · rfl
      · split
        · rfl
        · split
          any_goals rfl
          all_goals (exfalso; revert hreg; simp [registeredToolNames])
    unfold dispatchR
    rw [hval, if_neg (show ¬(registeredToolNames.contains name = true) from
      fun h => by rw [hreg] at h; exact absurd h (by decide))]
  · intro env name args m hval
    unfold dispatchR
    rw [hval]

theorem dispatch_validation_behavior_witness :
    dispatchR envOkGeneric "bogus_tool" none =
      (errResult "bogus_tool" "Unknown tool: bogus_tool", false) ∧
    dispatchR envOkGeneric "check_cluster_health"
        (some [("detailed", .vStr "yes")]) =
      (errResult "check_cluster_health" "detailed parameter must be boolean", false) :=
  ⟨(dispatch_validation_behavior).1 envOkGeneric "bogus_tool" none (by decide),
   (dispatch_validation_behavior).2.1 envOkGeneric "check_cluster_health"
     (some [("detailed", .vStr "yes")]) "detailed parameter must be boolean" (by decide)⟩

/-- A name that violates the DNS-1123 allow-list and carries shell
    metacharacters. -/
def badNameEx : String := "bad;Name$(x)"

/-- **C3** counterexample: the DNS-1123-violating name `bad;Name$(x)`
passes `validateToolArguments` (only a typeof-string check exists), and
`createDeployment` interpolates it verbatim into both the YAML manifest
and the shell command — the operation does not fail closed with an
`InvalidParameter` error. -/
theorem createDeployment_no_allowlist :
    dns1123Label badNameEx = false ∧
    validateToolArguments "create_deployment"
      (some [("name", .vStr badNameEx), ("image", .vStr "nginx")]) = .ok () ∧
    strIncludes (deploymentYaml badNameEx "default" "nginx" 1 [] none none none none)
      badNameEx = true ∧
    strIncludes
      (createDeploymentCmd false "" "" "" ""
        (deploymentYaml badNameEx "default" "nginx" 1 [] none none none none))
      badNameEx = true := by
  decide

/-- A string containing `n` surrounded by fixed text still contains `n`
    after further fixed text is appended on both sides. -/
lemma exists_decomp {y A n p : String} (hy : y = A ++ n ++ p) (E T : String) :
    ∃ pre post, E ++ y ++ T = pre ++ n ++ post :=
  ⟨E ++ A, p ++ T, by rw [hy]; simp only [String.append_assoc]⟩

/-- **C3** (amended): no allow-list validation exists: any non-empty
string accepted by the typeof checks — whatever characters it contains —
is interpolated verbatim into the deployment YAML manifest and into the
`kubectl apply` shell command; the builder never fails closed on a
pattern violation. -/
theorem createDeployment_interpolates_verbatim (name image ns : String)
    (replicas : JSNum) (ports : List (JSNum × Option String))
    (c1 c2 c3 c4 : Option String)
    (hn : name ≠ "") (hi : image ≠ "") :
    validateToolArguments "create_deployment"
        (some [("name", .vStr name), ("image", .vStr image)]) = .ok () ∧
    (∃ post : String,
      deploymentYaml name ns image replicas ports c1 c2 c3 c4 =
        "apiVersion: apps/v1\nkind: Deployment\nmetadata:\n  name: " ++ name ++ post) ∧
    (∃ pre post : String,
      createDeploymentCmd false "" "" "" ""
          (deploymentYaml name ns image replicas ports c1 c2 c3 c4) =
        pre ++ name ++ post) := by
  have hyaml : deploymentYaml name ns image replicas ports c1 c2 c3 c4 =
      "apiVersion: apps/v1\nkind: Deployment\nmetadata:\n  name: " ++ name ++
        ("\n  namespace: " ++ ns ++ "\n  labels:\n    app: " ++ name ++
         "\n    managed-by: openshift-mcp-server\nspec:\n  replicas: " ++
         jsIntStr replicas ++
         "\n  selector:\n    matchLabels:\n      app: " ++ name ++
         "\n  template:\n    metadata:\n      labels:\n        app: " ++ name ++
         "\n    spec:\n      containers:\n      - name: " ++ name ++
         "\n        image: " ++ image ++
         "\n        ports:\n" ++
         joinNl (ports.map (fun p =>
           "        - containerPort: " ++ jsIntStr p.1 ++
           "\n          protocol: " ++ orStr p.2 "TCP")) ++
         "\n        resources:\n          requests:\n            cpu: \"" ++
         orStr c1 "100m" ++
         "\"\n            memory: \"" ++ orStr c2 "128Mi" ++
         "\"\n          limits:\n            cpu: \"" ++ orStr2 c3 c1 "100m" ++
         "\"\n            memory: \"" ++ orStr2 c4 c2 "128Mi" ++ "\"\n") := by
    simp only [deploymentYaml, String.append_assoc]
  refine ⟨?_, ⟨_, hyaml⟩, ?_⟩
  · simp only [validateToolArguments, checkReqType, checkTruthyType, checkOptType,
      getField, truthyV, typeofJS, hn, hi]
    simp [hn, hi]
    rfl
  · have hcmd : createDeploymentCmd false "" "" "" ""
        (deploymentYaml name ns image replicas ports c1 c2 c3 c4) =
        "echo \x27" ++ deploymentYaml name ns image replicas ports c1 c2 c3 c4 ++
          "\x27 | kubectl apply -f -" := by
      unfold createDeploymentCmd
      rw [if_neg (by decide)]
    rw [hcmd]
    exact exists_decomp hyaml _ _

theorem createDeployment_interpolates_verbatim_witness :
    validateToolArguments "create_deployment"
        (some [("name", .vStr badNameEx), ("image", .vStr "nginx")]) = .ok () ∧
    (∃ post : String,
      deploymentYaml badNameEx "default" "nginx" 1 [] none none none none =
        "apiVersion: apps/v1\nkind: Deployment\nmetadata:\n  name: " ++ badNameEx ++ post) ∧
    (∃ pre post : String,
      createDeploymentCmd false "" "" "" ""
          (deploymentYaml badNameEx "default" "nginx" 1 [] none none none none) =
        pre ++ badNameEx ++ post) :=
  createDeployment_interpolates_verbatim badNameEx "nginx" "default" 1 []
    none none none none (by decide) (by decide)

lemma kbApplyLoop_all_ok (env : KBEnv) (hok : ∀ c, (env.exec c).ok = true)
    (mkCmd : Nat → String) :
    ∀ (n i : Nat), kbApplyLoop env mkCmd i n =
      (.ok (), (List.range n).map (fun k => mkCmd (i + k))) := by
  intro n
  induction n with
  | zero => intro i; rfl
  | succ n ih =>
    intro i
    show (let cmd := mkCmd i
          let r := env.exec cmd
          if r.ok then
            let (e, log) := kbApplyLoop env mkCmd (i + 1) n
            (e, cmd :: log)
          else (.error r.emsg, [cmd])) = _
    rw [if_pos (hok (mkCmd i)), ih (i + 1)]
    rw [List.range_succ_eq_map, List.map_cons, List.map_map]
    refine congrArg _ (congrArg _ ?_)
    exact List.map_congr_left (fun k _ => by
      simp only [Function.comp_apply]
      exact congrArg _ (by omega))

/-- C6: `run_kube_burner` with testType "node-density", iterations 2,
operation "create" and cleanup false issues one `kubectl create namespace`
command followed by exactly 2*10 = 20 `kubectl apply` commands, one per
generated pod manifest (`density-test-pod-1` .. `density-test-pod-20`),
and when every cluster command succeeds the returned payload reports
`podsCreated: 20` and `status: "Completed"`. -/
theorem runKubeBurner_node_density_create (env : KBEnv)
    (hok : ∀ c, (env.exec c).ok = true) (path : String) :
    runKubeBurner env path "node-density" 2 "kube-burner-test" "10m" false "create" =
      (.ok ⟨"node-density", 2, "kube-burner-test", "10m", "create", "Completed",
        some ⟨20, "node-density", toString env.elapsedS ++ "s", "Completed"⟩, none⟩,
       ("kubectl create namespace kube-burner-test --kubeconfig " ++ path) ::
         (List.range 20).map
           (fun k => kbApplyCmd (nodeDensityPodManifest "kube-burner-test" (1 + k)) path)) := by
  have hloop : kbApplyLoop env
      (fun i => kbApplyCmd (nodeDensityPodManifest "kube-burner-test" i) path) 1 20 =
      (.ok (), (List.range 20).map
        (fun k => kbApplyCmd (nodeDensityPodManifest "kube-burner-test" (1 + k)) path)) :=
    kbApplyLoop_all_ok env hok _ 20 1
  simp only [runKubeBurner, kbCreatePhase]
  rw [show loopCount ((2 : JSNum) * 10) = 20 from by decide]
  rw [hloop]
  rfl

def envOkT : KBEnv := ⟨fun _ => ⟨true, "", "", ""⟩, 16⟩

theorem runKubeBurner_node_density_create_witness :
    runKubeBurner envOkT "/kc" "node-density" 2 "kube-burner-test" "10m" false "create" =
      (.ok ⟨"node-density", 2, "kube-burner-test", "10m", "create", "Completed",
        some ⟨20, "node-density", toString envOkT.elapsedS ++ "s", "Completed"⟩, none⟩,
       ("kubectl create namespace kube-burner-test --kubeconfig " ++ "/kc") ::
         (List.range 20).map
           (fun k => kbApplyCmd (nodeDensityPodManifest "kube-burner-test" (1 + k)) "/kc")) :=
  runKubeBurner_node_density_create envOkT (fun _ => rfl) "/kc"

/-- The cluster-command oracle of the C7 scenario: every probe against
`node2` throws ("connect timeout"), journal queries on the other nodes
return one benign log line, and their status probes return "active". -/
def envKubeletEx : String → ExecRes := fun c =>
  if strIncludes c "node/node2" then ⟨false, "", "", "connect timeout"⟩
  else if strIncludes c "journalctl" then
    ⟨true, "Jan 01 00:00:01 node kubelet: started ok\n", "", ""⟩
  else ⟨true, "active\n", "", ""⟩

def kcfgEx : KubeletConfig :=
  ⟨false, "", "", "", "/root/.kube/config", "2026-01-01T00:00:00.000Z"⟩

/-- C7: in the per-node kubelet diagnostic loop, the failure of node2's
remote probe is caught: the loop records node2 as "inaccessible" with an
error log entry carrying the thrown message, still returns the findings
for node1 and node3 ("active"), and no error escapes the loop. -/
theorem checkKubeletStatus_partial_failure :
    checkKubeletStatusLoop kcfgEx envKubeletEx 24 false ["node1", "node2", "node3"] =
      ⟨[("node1", "active"), ("node2", "inaccessible"), ("node3", "active")],
       [⟨"node2", "2026-01-01T00:00:00.000Z", "error",
         "Cannot access kubelet service on node node2: connect timeout"⟩],
       []⟩ := by decide
